import Mathlib

/-!
# Verification of the circlejerk IMU-fusion pipeline

Shallow embedding of the repository's core components, translated from the Go
source, together with theorems settling the specification claims.

* Sample Synchronizer (src/internal/synchronization.go): timestamps are
  modelled as exact rationals, the `dataMap` as an association list with
  distinct keys; `GetAlignedData` sorts the keys and scans them in order.
* Fusion Orchestrator inner loop (the `processDataLoop` method): the timing
  step and the per-sample integration step, over exact rationals.
* Geometric Fusion Engine (the `GeometricFusion2D` / `AllCirclesIntersectAtPoint`
  implementation with pairwise circle intersection): over the reals, with
  `Real.sqrt` for `math.Sqrt`/`math.Hypot`.
* Rigid Aligner (src/internal/procrustes.go): over the reals; the call into
  gonum's SVD is modelled as an oracle parameter constrained by `IsSVDOf`.
* Spatial History Index (the `PointCloud` with `RadiusSearch`): over the reals.

Float arithmetic is idealised as exact real (or rational) arithmetic
throughout, which is the standard reading of the numeric claims.

The file is organised as definitions first, then theorems.
-/

namespace ImuFusion

open scoped Classical

/-! ## Definitions: data model and Synchronizer -/

/-- IMUData mirrors the Go struct `IMUData` (src/internal/types.go): originating
sensor id, timestamp (`time.Time`, modelled as an exact rational number of
seconds), and x,y,z acceleration and angular-velocity triples. -/
structure IMUData where
  imuID : Int
  timestamp : ℚ
  acceleration : ℚ × ℚ × ℚ
  angularVelocity : ℚ × ℚ × ℚ
deriving DecidableEq

/-- State of the Go `Synchronizer`: the `dataMap map[time.Time][]IMUData`,
modelled as an association list whose keys are pairwise distinct (as in a map);
the list order is irrelevant because `GetAlignedData` sorts the keys. -/
abbrev SyncState := List (ℚ × List IMUData)

/-- `AddData` appends the sample to the slice stored under its timestamp key,
creating the key if absent (Go: `s.dataMap[data.Timestamp] = append(...)`). -/
def AddData : SyncState → IMUData → SyncState
  | [], d => [(d.timestamp, [d])]
  | (t, l) :: rest, d =>
    if t = d.timestamp then (t, l ++ [d]) :: rest else (t, l) :: AddData rest d

/-- Ascending sort of the buffered entries by timestamp key, modelling the
`sort.Slice(timestamps, ...)` step of `GetAlignedData`. Keys in a map are
distinct, so any correct sort yields the same list. -/
def sortEntries (s : SyncState) : SyncState :=
  s.insertionSort (fun a b => a.1 ≤ b.1)

/-- Ordered scan of `GetAlignedData`: emit every frame whose buffered sample
count equals `imuCount` (removing it from the buffer) and stop at the first
key whose count differs. Returns (emitted frames, remaining buffer). -/
def scanFrames (n : Nat) : SyncState → List (List IMUData) × SyncState
  | [] => ([], [])
  | (t, l) :: rest =>
    if l.length = n then
      let r := scanFrames n rest
      (l :: r.1, r.2)
    else ([], (t, l) :: rest)

/-- `GetAlignedData` (src/internal/synchronization.go): sort the timestamp keys
ascending, then scan in order, emitting complete frames until the first
incomplete one. Returns the emitted frames and the post-call buffer. -/
def GetAlignedData (imuCount : Nat) (s : SyncState) :
    List (List IMUData) × SyncState :=
  scanFrames imuCount (sortEntries s)

instance : IsTotal (ℚ × List IMUData) (fun a b => a.1 ≤ b.1) :=
  ⟨fun a b => le_total a.1 b.1⟩

instance : IsTrans (ℚ × List IMUData) (fun a b => a.1 ≤ b.1) :=
  ⟨fun _ _ _ h h' => le_trans h h'⟩

/-- Sample used for concrete synchronizer evaluations: sensor `i`, time `t`. -/
def mkSample (i : Int) (t : ℚ) : IMUData := ⟨i, t, (0, 0, 0), (0, 0, 0)⟩

/-! ## Definitions: Orchestrator inner loop -/

/-- IMU mirrors the Go struct `IMU` (src/internal/types.go): id and the
calibration offsets and scales. -/
structure IMU where
  id : Int
  offsetX : ℚ
  offsetY : ℚ
  scaleX : ℚ
  scaleY : ℚ
deriving DecidableEq

/-- `ApplyCalibration` (the calibration file): `(raw - offset) * scale`
componentwise. -/
def ApplyCalibration (imu : IMU) (rawX rawY : ℚ) : ℚ × ℚ :=
  ((rawX - imu.offsetX) * imu.scaleX, (rawY - imu.offsetY) * imu.scaleY)

/-- Timing step at the head of each frame in `processDataLoop`
(src/unnamed/part_001, lines 234-239): `dt` is the frame timestamp minus
`lastTime` clamped to `1e-9` when non-positive, and `lastTime` is
unconditionally set to the frame timestamp. Returns `(dt, new lastTime)`. -/
def processFrameTiming (lastTime now : ℚ) : ℚ × ℚ :=
  let dt := now - lastTime
  (if dt ≤ 0 then 1e-9 else dt, now)

/-- Integration state owned by the orchestrator: per-sensor velocities and
positions (the `sys.velocities` / `sys.positions` slices). -/
structure OrchState where
  velocities : List (ℚ × ℚ)
  positions : List (ℚ × ℚ)
deriving DecidableEq

/-- One step of the per-sample loop of `processDataLoop` (src/unnamed/part_001,
lines 243-263). The Go code checks only `imuIndex >= sys.imuCount` before
indexing the `calib`, `velocities` and `positions` slices, so an id that
passes the guard but is negative hits a panicking slice access, modelled as
`none`; `some st'` models normal continuation with the updated state. -/
def integrateSample (imuCount : Int) (calib : List IMU) (st : OrchState)
    (d : IMUData) (dt : ℚ) : Option OrchState :=
  let i := d.imuID
  if i ≥ imuCount then some st
  else
    match (if 0 ≤ i then calib.get? i.toNat else none),
        (if 0 ≤ i then st.velocities.get? i.toNat else none),
        (if 0 ≤ i then st.positions.get? i.toNat else none) with
    | some c, some v, some p =>
      let a := ApplyCalibration c d.acceleration.1 d.acceleration.2.1
      let v' := (v.1 + a.1 * dt, v.2 + a.2 * dt)
      let p' := (p.1 + v'.1 * dt, p.2 + v'.2 * dt)
      some ⟨st.velocities.set i.toNat v', st.positions.set i.toNat p'⟩
    | _, _, _ => none

/-- Default calibration for four sensors, as built by `NewIMUFusionSystem`. -/
def calib4 : List IMU := [⟨0, 0, 0, 1, 1⟩, ⟨1, 0, 0, 1, 1⟩, ⟨2, 0, 0, 1, 1⟩, ⟨3, 0, 0, 1, 1⟩]

/-- Fresh integration state for four sensors. -/
def orchState4 : OrchState :=
  ⟨List.replicate 4 (0, 0), List.replicate 4 (0, 0)⟩

/-! ## Definitions: Geometric Fusion Engine (src/unnamed/part_002) -/

/-- Tolerance constant `epsilon = 1e-9` of the geometry code. -/
noncomputable def epsilon : ℝ := 1e-9

/-- Vec2 mirrors the Go struct `Vec2`. -/
structure Vec2 where
  x : ℝ
  y : ℝ

/-- Position mirrors the Go struct `Position`: a 2D position with an
uncertainty radius. -/
structure Position where
  x : ℝ
  y : ℝ
  r : ℝ

/-- `Distance2D`: `math.Hypot(a.X-b.X, a.Y-b.Y)`, the Euclidean distance. -/
noncomputable def Distance2D (a b : Vec2) : ℝ :=
  Real.sqrt ((a.x - b.x) ^ 2 + (a.y - b.y) ^ 2)

/-- `intersectTwoCircles`: intersection points of two circles, following the
Go code line by line; returns the count (0, 1 or 2) and the two points, with
zero values for absent points. -/
noncomputable def intersectTwoCircles (c1 : Vec2) (r1 : ℝ) (c2 : Vec2) (r2 : ℝ) :
    Nat × Vec2 × Vec2 :=
  let d := Distance2D c1 c2
  if d > r1 + r2 + epsilon ∨ d < |r1 - r2| - epsilon ∨ (d < epsilon ∧ |r1 - r2| > epsilon) then
    (0, ⟨0, 0⟩, ⟨0, 0⟩)
  else
    let a := (r1 * r1 - r2 * r2 + d * d) / (2 * d)
    let h := Real.sqrt (max 0 (r1 * r1 - a * a))
    let x2 := c1.x + a * (c2.x - c1.x) / d
    let y2 := c1.y + a * (c2.y - c1.y) / d
    let p1 : Vec2 := ⟨x2 + h * (c2.y - c1.y) / d, y2 - h * (c2.x - c1.x) / d⟩
    let p2 : Vec2 := ⟨x2 - h * (c2.y - c1.y) / d, y2 + h * (c2.x - c1.x) / d⟩
    if d > r1 + r2 - epsilon ∨ d < |r1 - r2| + epsilon ∨ h < epsilon then
      (1, p1, ⟨0, 0⟩)
    else
      (2, p1, p2)

/-- `isInsideAll`: the point lies within distance `radii[i] + epsilon` of every
center; `radii` is indexed in step with `centers`, as in the Go loop (the two
lists always have equal length at every call site). -/
def isInsideAll (p : Vec2) (centers : List Vec2) (radii : List ℝ) : Prop :=
  ∀ cr ∈ centers.zip radii, Distance2D p cr.1 ≤ cr.2 + epsilon

/-- Ordered pairs `(i, j)` with `i < j`, in the order of the Go double loop. -/
def allPairs {α : Type} : List α → List (α × α)
  | [] => []
  | a :: rest => (rest.map fun b => (a, b)) ++ allPairs rest

/-- Candidate boundary points (`validIntersectionPoints` in the Go code): all
pairwise circle intersection points that lie inside every circle, in the Go
iteration order. -/
noncomputable def pairCandidates (circles : List (Vec2 × ℝ)) (centers : List Vec2)
    (radii : List ℝ) : List Vec2 :=
  (allPairs circles).flatMap fun cc =>
    let r := intersectTwoCircles cc.1.1 cc.1.2 cc.2.1 cc.2.2
    (if 1 ≤ r.1 ∧ isInsideAll r.2.1 centers radii then [r.2.1] else []) ++
      (if r.1 = 2 ∧ isInsideAll r.2.2 centers radii then [r.2.2] else [])

/-- Deduplication key: the Go code compares `fmt.Sprintf("%.9f,%.9f")` strings,
i.e. the coordinates rounded to 9 decimal places; modelled as rounding to the
nearest integer after scaling by `1e9`. -/
noncomputable def pointKey (p : Vec2) : ℤ × ℤ :=
  (round (p.x * 1000000000), round (p.y * 1000000000))

/-- First-occurrence deduplication of candidate points by their formatted key
(the `seen` map of the Go code). -/
noncomputable def dedupPoints : List (ℤ × ℤ) → List Vec2 → List Vec2
  | _, [] => []
  | seen, p :: rest =>
    if pointKey p ∈ seen then dedupPoints seen rest
    else p :: dedupPoints (pointKey p :: seen) rest

/-- Mean of a list of points (used for the unique-candidate centroid and the
centroid of the original centers). -/
noncomputable def centroidVec (l : List Vec2) : Vec2 :=
  ⟨(l.map Vec2.x).sum / l.length, (l.map Vec2.y).sum / l.length⟩

/-- `AllCirclesIntersectAtPoint`: decides whether all circles share a common
point and returns one; `none` models Go's `(false, Vec2{})`. Follows the Go
control flow: trivial cases, deduplicated boundary candidates (single point,
else centroid with fallback to the first), contained-circle centers sorted by
radius, and finally the centroid of the original centers. -/
noncomputable def AllCirclesIntersectAtPoint (centers : List Vec2) (radii : List ℝ) :
    Option Vec2 :=
  match centers with
  | [] => none
  | [c] => some c
  | _ :: _ :: _ =>
    let circles := centers.zip radii
    let uniq := dedupPoints [] (pairCandidates circles centers radii)
    match uniq with
    | [p] => some p
    | p :: _ :: _ =>
      let cent := centroidVec uniq
      if isInsideAll cent centers radii then some cent else some p
    | [] =>
      let contained := circles.filter fun cr => decide (isInsideAll cr.1 centers radii)
      match contained.insertionSort (fun a b => a.2 ≤ b.2) with
      | c :: _ => some c.1
      | [] =>
        let oc := centroidVec centers
        if isInsideAll oc centers radii then some oc else none

/-- Binary-search loop of `GeometricFusion2D`, with a fuel parameter: state is
`(alphaMin, alphaMax, fused)`, one iteration probes the midpoint and narrows
the bracket. The Go `for alphaMax-alphaMin > 1e-4` loop halves the bracket
width exactly each pass, so any fuel of at least 17 yields the loop's exit
value from the initial bracket `[1, 10]` (see `fuseLoop_halt`). -/
noncomputable def fuseLoop (centers : List Vec2) (radii : List ℝ) :
    Nat → ℝ → ℝ → Option Vec2 → ℝ × Option Vec2
  | 0, _, alphaMax, fused => (alphaMax, fused)
  | n + 1, alphaMin, alphaMax, fused =>
    if alphaMax - alphaMin > 1e-4 then
      match AllCirclesIntersectAtPoint centers
          (radii.map fun r => 0.5 * (alphaMin + alphaMax) * r) with
      | some p => fuseLoop centers radii n alphaMin (0.5 * (alphaMin + alphaMax)) (some p)
      | none => fuseLoop centers radii n (0.5 * (alphaMin + alphaMax)) alphaMax fused
    else (alphaMax, fused)

/-- Centers of the input estimates. -/
noncomputable def fusionCenters (positions : List Position) : List Vec2 :=
  positions.map fun p => ⟨p.x, p.y⟩

/-- Radii of the input estimates. -/
noncomputable def fusionRadii (positions : List Position) : List ℝ :=
  positions.map Position.r

/-- `GeometricFusion2D`: binary search for the minimal inflation alpha in the
bracket `[1, 10]`, returning the final upper bound as alpha and uncertainty,
and the last successful intersection point (zero value if none succeeded). -/
noncomputable def GeometricFusion2D (positions : List Position) : ℝ × Position :=
  let r := fuseLoop (fusionCenters positions) (fusionRadii positions) 100 1 10 none
  (r.1, ⟨(r.2.getD ⟨0, 0⟩).x, (r.2.getD ⟨0, 0⟩).y, r.1⟩)

/-- Radii of a list of estimates are nonnegative (an uncertainty radius is a
distance). -/
def NonnegRadii (positions : List Position) : Prop :=
  ∀ e ∈ positions, 0 ≤ e.r

/-- Every probe of the binary search fails: no common point is found at any
inflation factor in the search bracket, even the maximum. -/
def NoProbeSucceeds (positions : List Position) : Prop :=
  ∀ a : ℝ, 1 ≤ a → a ≤ 10 →
    AllCirclesIntersectAtPoint (fusionCenters positions)
      ((fusionRadii positions).map fun r => a * r) = none

/-! ## Definitions: Spatial History Index (the `PointCloud`) -/

/-- Point mirrors the Go struct `Point` (src/internal/types.go). -/
structure Point where
  x : ℝ
  y : ℝ

/-- `RadiusSearch` (src/unnamed/part_003, lines 211-224): linear scan keeping
every stored point with `dx*dx + dy*dy <= radius*radius`. -/
noncomputable def RadiusSearch (points : List Point) (x y radius : ℝ) : List Point :=
  points.filter fun pt =>
    decide ((pt.x - x) * (pt.x - x) + (pt.y - y) * (pt.y - y) ≤ radius * radius)

/-- Point-cloud refinement step of `processDataLoop` (src/unnamed/part_001,
lines 294-306): replace the fused coordinates by the mean of the neighbors
within the fused radius, or keep them if there are none. -/
noncomputable def refineWithCloud (points : List Point) (x y radius : ℝ) : ℝ × ℝ :=
  let neighbors := RadiusSearch points x y radius
  if 0 < neighbors.length then
    ((neighbors.map Point.x).sum / neighbors.length,
      (neighbors.map Point.y).sum / neighbors.length)
  else (x, y)

/-! ## Definitions: Rigid Aligner (src/internal/procrustes.go) -/

/-- A 2x2 real matrix in row-major order: row 1 is `(a b)`, row 2 is `(c d)`. -/
structure Mat2 where
  a : ℝ
  b : ℝ
  c : ℝ
  d : ℝ

/-- Matrix transpose. -/
def Mat2.transpose (M : Mat2) : Mat2 := ⟨M.a, M.c, M.b, M.d⟩

/-- Matrix product. -/
noncomputable def Mat2.mul (M N : Mat2) : Mat2 :=
  ⟨M.a * N.a + M.b * N.c, M.a * N.b + M.b * N.d,
    M.c * N.a + M.d * N.c, M.c * N.b + M.d * N.d⟩

/-- Determinant. -/
noncomputable def Mat2.det (M : Mat2) : ℝ := M.a * M.d - M.b * M.c

/-- Identity matrix. -/
def Mat2.one : Mat2 := ⟨1, 0, 0, 1⟩

/-- Matrix-vector product. -/
noncomputable def Mat2.mulVec (M : Mat2) (p : Point) : Point :=
  ⟨M.a * p.x + M.b * p.y, M.c * p.x + M.d * p.y⟩

/-- Diagonal matrix of the singular values. -/
def diagMat (s1 s2 : ℝ) : Mat2 := ⟨s1, 0, 0, s2⟩

/-- Negate the last column (the reflection correction applied to `V`). -/
noncomputable def negLastCol (M : Mat2) : Mat2 := ⟨M.a, -M.b, M.c, -M.d⟩

/-- Result of the SVD library call: `H = U * diag(s1, s2) * Vᵀ`. -/
structure SVDResult where
  U : Mat2
  s1 : ℝ
  s2 : ℝ
  V : Mat2

/-- Dot product of 2D points viewed as vectors. -/
noncomputable def dotP (p q : Point) : ℝ := p.x * q.x + p.y * q.y

/-- Contract of gonum's `svd.Factorize`/`UTo`/`VTo`/`Values` on the 2x2
covariance matrix: `U` and `V` have orthonormal columns, the singular values
are in descending order and nonnegative, and `H = U S Vᵀ`. The library call is
modelled as an oracle parameter that returns some such decomposition. -/
def IsSVDOf (H : Mat2) (r : SVDResult) : Prop :=
  r.U.transpose.mul r.U = Mat2.one ∧ r.V.transpose.mul r.V = Mat2.one ∧
    r.s2 ≤ r.s1 ∧ 0 ≤ r.s2 ∧ (r.U.mul (diagMat r.s1 r.s2)).mul r.V.transpose = H

/-- Centroid of a point set; the zero point for the empty set (Go `centroid`). -/
noncomputable def centroid (points : List Point) : Point :=
  if points.length = 0 then ⟨0, 0⟩
  else ⟨(points.map Point.x).sum / points.length, (points.map Point.y).sum / points.length⟩

/-- Subtract the centroid from every point (Go `centerPoints`). -/
noncomputable def centerPoints (points : List Point) (c : Point) : List Point :=
  points.map fun p => ⟨p.x - c.x, p.y - c.y⟩

/-- `computeCovarianceMatrix`: `H = X * Yᵀ` with the centered source and target
points as the columns of the 2xN matrices `X` and `Y`; `none` models the Go
nil return on empty or mismatched input. -/
noncomputable def computeCovarianceMatrix (source target : List Point) : Option Mat2 :=
  if source.length = 0 ∨ source.length ≠ target.length then none
  else
    some ⟨((source.zip target).map fun st => st.1.x * st.2.x).sum,
      ((source.zip target).map fun st => st.1.x * st.2.y).sum,
      ((source.zip target).map fun st => st.1.y * st.2.x).sum,
      ((source.zip target).map fun st => st.1.y * st.2.y).sum⟩

/-- Error conditions of the Aligner. The Go function signals them by printing
a warning and returning `([]Point{}, Point{}, 0.0)`; the sentinel is modelled
as an `Except` error value. -/
inductive ProcError where
  | invalidInput
deriving DecidableEq

/-- `Procrustes` (src/internal/procrustes.go): least-squares rigid alignment of
`source` onto `target`. Degenerate input is rejected; a single point is only
translated; otherwise rotation comes from the SVD of the cross-covariance
(with reflection correction when `det R < 0`), the scale is the ratio of the
singular-value sum to the source variance (defaulting to 1 below `epsilon`),
and the transform `p ↦ scale * R * p + centroidTarget` is applied to the
centered source points. The SVD library call is the `svd` oracle parameter. -/
noncomputable def Procrustes (svd : Mat2 → SVDResult) (source target : List Point) :
    Except ProcError (List Point × Point × ℝ) :=
  if source.length = 0 ∨ target.length = 0 ∨ source.length ≠ target.length then
    .error .invalidInput
  else if source.length < 2 then
    match source with
    | [] => .error .invalidInput
    | p :: _ =>
      let cs := centroid source
      let ct := centroid target
      .ok ([⟨p.x + (ct.x - cs.x), p.y + (ct.y - cs.y)⟩], ct, 1)
  else
    let cs := centroid source
    let ct := centroid target
    let csrc := centerPoints source cs
    let ctgt := centerPoints target ct
    match computeCovarianceMatrix csrc ctgt with
    | none => .error .invalidInput
    | some H =>
      let r := svd H
      let R0 := r.V.mul r.U.transpose
      let R := if R0.det < 0 then (negLastCol r.V).mul r.U.transpose else R0
      let sumS := r.s1 + r.s2
      let varSource := (csrc.map fun p => p.x * p.x + p.y * p.y).sum
      let scale := if varSource > epsilon then sumS / varSource else 1
      .ok (csrc.map fun p =>
          ⟨scale * (R.a * p.x + R.b * p.y) + ct.x,
            scale * (R.c * p.x + R.d * p.y) + ct.y⟩, ct, scale)

/-- Cross-covariance of a point list with itself: `Σ cᵢ cᵢᵀ`. -/
noncomputable def covOf (l : List Point) : Mat2 :=
  ⟨(l.map fun p => p.x * p.x).sum, (l.map fun p => p.x * p.y).sum,
    (l.map fun p => p.y * p.x).sum, (l.map fun p => p.y * p.y).sum⟩

/-- Covariance matrix computed by `Procrustes` when aligning `P` with itself:
`H = Σ cᵢ cᵢᵀ` over the centered points `cᵢ`. -/
noncomputable def procrustesSelfCov (P : List Point) : Mat2 :=
  covOf (centerPoints P (centroid P))

/-- Rotation matrix computed by `Procrustes` (after the possible reflection
correction) from the given SVD result. -/
noncomputable def procrustesRot (r : SVDResult) : Mat2 :=
  let R0 := r.V.mul r.U.transpose
  if R0.det < 0 then (negLastCol r.V).mul r.U.transpose else R0

/-! ## Theorems: Synchronizer (claims C2 and C8) -/

lemma scanFrames_eq (n : Nat) (l : SyncState) :
    scanFrames n l =
      ((l.takeWhile (fun e => e.2.length == n)).map Prod.snd,
        l.dropWhile (fun e => e.2.length == n)) := by
  induction l with
  | nil => rfl
  | cons e rest ih =>
    obtain ⟨t, fr⟩ := e
    by_cases h : fr.length = n
    · simp [scanFrames, h, List.takeWhile_cons, List.dropWhile_cons, ih]
    · simp [scanFrames, h, List.takeWhile_cons, List.dropWhile_cons]

lemma sortEntries_perm (s : SyncState) : (sortEntries s).Perm s :=
  List.perm_insertionSort _ s

lemma sortEntries_sorted (s : SyncState) :
    (sortEntries s).Sorted (fun a b => a.1 ≤ b.1) :=
  List.sorted_insertionSort _ s

/-- C2. Synchronizer frame delivery: `GetAlignedData` returns exactly the
complete frames (sample count equal to the sensor count) forming the longest
prefix of the timestamp-sorted buffer, in ascending timestamp order; the
post-call buffer is the rest of the sorted buffer, so every returned timestamp
has been removed and cannot be returned by a later call; no frame at or after
the first incomplete key is returned, even if complete. -/
theorem getAlignedData_spec (n : Nat) (s : SyncState) (t : ℚ)
    (hnd : (s.map Prod.fst).Nodup) :
    (GetAlignedData n s).1
        = ((sortEntries s).takeWhile (fun e => e.2.length == n)).map Prod.snd
    ∧ (GetAlignedData n s).2
        = (sortEntries s).dropWhile (fun e => e.2.length == n)
    ∧ (((sortEntries s).takeWhile (fun e => e.2.length == n)).map
        Prod.fst).Pairwise (· < ·)
    ∧ (t ∈ ((sortEntries s).takeWhile (fun e => e.2.length == n)).map Prod.fst →
        t ∉ (GetAlignedData n s).2.map Prod.fst) := by
  have hscan := scanFrames_eq n (sortEntries s)
  have h1 : (GetAlignedData n s).1
      = ((sortEntries s).takeWhile (fun e => e.2.length == n)).map Prod.snd := by
    simp [GetAlignedData, hscan]
  have h2 : (GetAlignedData n s).2
      = (sortEntries s).dropWhile (fun e => e.2.length == n) := by
    simp [GetAlignedData, hscan]
  have hkperm : ((sortEntries s).map Prod.fst).Perm (s.map Prod.fst) :=
    (sortEntries_perm s).map Prod.fst
  have hknd : ((sortEntries s).map Prod.fst).Nodup := hkperm.nodup_iff.mpr hnd
  have hkle : ((sortEntries s).map Prod.fst).Pairwise (· ≤ ·) := by
    have := sortEntries_sorted s
    exact List.Pairwise.map Prod.fst (fun {a b} h => h) this
  have hklt : ((sortEntries s).map Prod.fst).Pairwise (· < ·) := by
    have hand := List.Pairwise.and hkle hknd
    exact hand.imp (fun {a b} h => lt_of_le_of_ne h.1 h.2)
  have hsubl : (((sortEntries s).takeWhile (fun e => e.2.length == n)).map
      Prod.fst).Sublist ((sortEntries s).map Prod.fst) :=
    (List.takeWhile_sublist _).map Prod.fst
  have h3 := hklt.sublist hsubl
  refine ⟨h1, h2, h3, ?_⟩
  intro hmem
  have hsplit : ((sortEntries s).takeWhile (fun e => e.2.length == n))
      ++ ((sortEntries s).dropWhile (fun e => e.2.length == n)) = sortEntries s :=
    List.takeWhile_append_dropWhile _ _
  have hnd2 : ((((sortEntries s).takeWhile (fun e => e.2.length == n)).map Prod.fst)
      ++ (((sortEntries s).dropWhile (fun e => e.2.length == n)).map Prod.fst)).Nodup := by
    rw [← List.map_append, hsplit]; exact hknd
  have hdisj := (List.nodup_append.mp hnd2).2.2
  rw [h2]
  exact hdisj hmem

/-- Witness for C2 at a concrete buffer: keys 2 and 0 complete for two sensors,
key 1 incomplete; only the frame at key 0 is delivered (not the complete later
key 2), and key 0 leaves the buffer. -/
theorem getAlignedData_spec_witness :
    (([((2 : ℚ), [mkSample 0 2, mkSample 1 2]), ((0 : ℚ), [mkSample 0 0, mkSample 1 0]),
        ((1 : ℚ), [mkSample 0 1])].map Prod.fst).Nodup)
    ∧ ((GetAlignedData 2 [((2 : ℚ), [mkSample 0 2, mkSample 1 2]),
          ((0 : ℚ), [mkSample 0 0, mkSample 1 0]), ((1 : ℚ), [mkSample 0 1])]).1
        = ((sortEntries [((2 : ℚ), [mkSample 0 2, mkSample 1 2]),
            ((0 : ℚ), [mkSample 0 0, mkSample 1 0]),
            ((1 : ℚ), [mkSample 0 1])]).takeWhile (fun e => e.2.length == 2)).map Prod.snd)
    ∧ ((0 : ℚ) ∈ ((sortEntries [((2 : ℚ), [mkSample 0 2, mkSample 1 2]),
          ((0 : ℚ), [mkSample 0 0, mkSample 1 0]),
          ((1 : ℚ), [mkSample 0 1])]).takeWhile (fun e => e.2.length == 2)).map Prod.fst →
        (0 : ℚ) ∉ (GetAlignedData 2 [((2 : ℚ), [mkSample 0 2, mkSample 1 2]),
          ((0 : ℚ), [mkSample 0 0, mkSample 1 0]),
          ((1 : ℚ), [mkSample 0 1])]).2.map Prod.fst) := by
  refine ⟨by decide, ?_, ?_⟩
  · exact (getAlignedData_spec 2 _ 0 (by decide)).1
  · exact (getAlignedData_spec 2 _ 0 (by decide)).2.2.2

/-- C8 evidence. Two samples from the same sensor at the same timestamp count
as a complete frame for `imuCount = 2`: the emitted frame carries sensor id 0
twice and no sample for sensor id 1, violating the one-sample-per-sensor frame
invariant stated by the spec and by the function's own doc comment. -/
theorem getAlignedData_duplicate_sensor_id :
    (GetAlignedData 2 (AddData (AddData [] (mkSample 0 0)) (mkSample 0 0))).1
      = [[mkSample 0 0, mkSample 0 0]]
    ∧ ((GetAlignedData 2 (AddData (AddData [] (mkSample 0 0))
          (mkSample 0 0))).1.map fun f => f.map IMUData.imuID) = [[0, 0]] := by
  constructor <;> rfl

/-! ## Theorems: Orchestrator timing and sample handling (claims C6 and C7) -/

/-- C7 counterexample. A frame whose timestamp precedes the current `lastTime`
strictly decreases the last-processed time: the code sets `lastTime = now`
unconditionally, so the claimed monotonicity fails. -/
theorem lastTime_decreases_on_old_frame :
    (processFrameTiming 10 5).2 < 10 := by
  norm_num [processFrameTiming]

/-- C7 amended. The integration delta is always strictly positive (a
non-positive delta is clamped to exactly `1e-9`), and the last-processed time
does not decrease provided the frame timestamp is not older than it. -/
theorem processFrameTiming_dt_pos (lastTime now : ℚ) :
    0 < (processFrameTiming lastTime now).1
    ∧ (now - lastTime ≤ 0 → (processFrameTiming lastTime now).1 = 1e-9)
    ∧ (lastTime ≤ now → lastTime ≤ (processFrameTiming lastTime now).2) := by
  refine ⟨?_, ?_, ?_⟩
  · by_cases h : now - lastTime ≤ 0
    · simp [processFrameTiming, h]; norm_num
    · simp only [processFrameTiming, if_neg h]
      linarith [not_le.mp h]
  · intro h; simp [processFrameTiming, h]
  · intro h; simp [processFrameTiming, h]

/-- Witness for C7 at `lastTime = 0`, `now = 5`. -/
theorem processFrameTiming_dt_pos_witness :
    0 < (processFrameTiming 0 5).1 ∧ (0 : ℚ) ≤ 5
    ∧ (0 : ℚ) ≤ (processFrameTiming 0 5).2 := by
  refine ⟨(processFrameTiming_dt_pos 0 5).1, by norm_num,
    (processFrameTiming_dt_pos 0 5).2.2 (by norm_num)⟩

/-- C6 evidence. A sample with sensor id `-1` in a 4-sensor system is not
dropped: it passes the `imuIndex >= sys.imuCount` guard and indexes the state
slices with a negative index (a Go runtime panic, `none` here), whereas a
sample with id 7 is dropped and processing continues (`some` of the unchanged
state). The lower bound is simply never checked. -/
theorem integrateSample_negative_id_not_dropped :
    integrateSample 4 calib4 orchState4 (mkSample (-1) 0) (1 / 1000) = none
    ∧ integrateSample 4 calib4 orchState4 (mkSample 7 0) (1 / 1000)
        = some orchState4 := by
  constructor <;> rfl

/-! ## Theorems: Geometric Fusion Engine (claims C1 and C9) -/

lemma epsilon_pos : (0 : ℝ) < epsilon := by norm_num [epsilon]

lemma dedupPoints_subset (q : Vec2) :
    ∀ (seen : List (ℤ × ℤ)) (l : List Vec2), q ∈ dedupPoints seen l → q ∈ l := by
  intro seen l
  induction l generalizing seen with
  | nil => intro h; simp [dedupPoints] at h
  | cons p rest ih =>
    intro h
    rw [dedupPoints] at h
    by_cases hk : pointKey p ∈ seen
    · rw [if_pos hk] at h
      exact List.mem_cons_of_mem _ (ih _ h)
    · rw [if_neg hk] at h
      rcases List.mem_cons.mp h with h | h
      · exact h ▸ List.mem_cons_self _ _
      · exact List.mem_cons_of_mem _ (ih _ h)

lemma mem_pairCandidates {circles : List (Vec2 × ℝ)} {centers : List Vec2}
    {radii : List ℝ} {q : Vec2} (hq : q ∈ pairCandidates circles centers radii) :
    isInsideAll q centers radii := by
  simp only [pairCandidates, List.mem_flatMap, List.mem_append] at hq
  obtain ⟨cc, _, h⟩ := hq
  rcases h with h | h <;> split at h <;> simp_all

lemma allCirclesIntersectAtPoint_sound (centers : List Vec2) (radii : List ℝ)
    (hr : ∀ r ∈ radii, 0 ≤ r) (p : Vec2)
    (hp : AllCirclesIntersectAtPoint centers radii = some p) :
    isInsideAll p centers radii := by
  match centers with
  | [] => simp [AllCirclesIntersectAtPoint] at hp
  | [c] =>
    have hcp : c = p := by simpa [AllCirclesIntersectAtPoint] using hp
    subst hcp
    intro cr hcr
    match radii, hcr with
    | r :: rs, hcr =>
      have : cr = (c, r) := by simpa using hcr
      subst this
      have hd : Distance2D c c = 0 := by
        simp [Distance2D]
      rw [hd]
      have := hr r (List.mem_cons_self _ _)
      linarith [epsilon_pos]
  | c1 :: c2 :: cs =>
    simp only [AllCirclesIntersectAtPoint] at hp
    split at hp
    · -- single unique candidate
      rename_i q heq
      have hqp : q = p := by simpa using hp
      subst hqp
      exact mem_pairCandidates
        (dedupPoints_subset _ _ _ (heq ▸ List.mem_cons_self _ _))
    · -- several unique candidates: centroid or first
      rename_i q q' qrest heq
      split at hp
      · obtain rfl : centroidVec (dedupPoints []
            (pairCandidates ((c1 :: c2 :: cs).zip radii) (c1 :: c2 :: cs) radii)) = p := by
          simpa using hp
        assumption
      · have hqp : q = p := by simpa using hp
        subst hqp
        exact mem_pairCandidates
          (dedupPoints_subset _ _ _ (heq ▸ List.mem_cons_self _ _))
    · -- no candidate: contained circles, then the centroid of the centers
      split at hp
      · rename_i c crest heq
        obtain rfl : c.1 = p := by simpa using hp
        have hmem : c ∈ ((c1 :: c2 :: cs).zip radii).filter
            (fun cr => decide (isInsideAll cr.1 (c1 :: c2 :: cs) radii)) := by
          have : c ∈ (((c1 :: c2 :: cs).zip radii).filter
              (fun cr => decide (isInsideAll cr.1 (c1 :: c2 :: cs) radii))).insertionSort
              (fun a b => a.2 ≤ b.2) := heq ▸ List.mem_cons_self _ _
          exact (List.perm_insertionSort _ _).mem_iff.mp this
        have := List.of_mem_filter hmem
        simpa using this
      · split at hp
        · obtain rfl : centroidVec (c1 :: c2 :: cs) = p := by simpa using hp
          assumption
        · exact absurd hp (by simp)

lemma fuseLoop_step_pos (centers : List Vec2) (radii : List ℝ) (n : Nat)
    (aMin aMax : ℝ) (best : Option Vec2) (q : Vec2) (hw : aMax - aMin > 1e-4)
    (hpr : AllCirclesIntersectAtPoint centers
      (radii.map fun r => 0.5 * (aMin + aMax) * r) = some q) :
    fuseLoop centers radii (n + 1) aMin aMax best
      = fuseLoop centers radii n aMin (0.5 * (aMin + aMax)) (some q) := by
  rw [fuseLoop, if_pos hw, hpr]

lemma fuseLoop_step_neg (centers : List Vec2) (radii : List ℝ) (n : Nat)
    (aMin aMax : ℝ) (best : Option Vec2) (hw : aMax - aMin > 1e-4)
    (hpr : AllCirclesIntersectAtPoint centers
      (radii.map fun r => 0.5 * (aMin + aMax) * r) = none) :
    fuseLoop centers radii (n + 1) aMin aMax best
      = fuseLoop centers radii n (0.5 * (aMin + aMax)) aMax best := by
  rw [fuseLoop, if_pos hw, hpr]

lemma fuseLoop_step_done (centers : List Vec2) (radii : List ℝ) (n : Nat)
    (aMin aMax : ℝ) (best : Option Vec2) (hw : ¬ aMax - aMin > 1e-4) :
    fuseLoop centers radii (n + 1) aMin aMax best = (aMax, best) := by
  rw [fuseLoop, if_neg hw]

lemma fuseLoop_bracket (centers : List Vec2) (radii : List ℝ) :
    ∀ (n : Nat) (aMin aMax : ℝ) (best : Option Vec2),
      1 ≤ aMin → aMin ≤ aMax → aMax ≤ 10 →
      1 ≤ (fuseLoop centers radii n aMin aMax best).1
        ∧ (fuseLoop centers radii n aMin aMax best).1 ≤ 10 := by
  intro n
  induction n with
  | zero =>
    intro aMin aMax best h1 h2 h3
    exact ⟨le_trans h1 h2, h3⟩
  | succ n ih =>
    intro aMin aMax best h1 h2 h3
    by_cases hw : aMax - aMin > 1e-4
    · cases hpr : AllCirclesIntersectAtPoint centers
          (radii.map fun r => 0.5 * (aMin + aMax) * r) with
      | some q =>
        rw [fuseLoop_step_pos centers radii n aMin aMax best q hw hpr]
        exact ih _ _ _ h1 (by linarith) (by linarith)
      | none =>
        rw [fuseLoop_step_neg centers radii n aMin aMax best hw hpr]
        exact ih _ _ _ (by linarith) (by linarith) h3
    · rw [fuseLoop_step_done centers radii n aMin aMax best hw]
      exact ⟨le_trans h1 h2, h3⟩

lemma fuseLoop_sound (centers : List Vec2) (radii : List ℝ)
    (hr : ∀ r ∈ radii, 0 ≤ r) :
    ∀ (n : Nat) (aMin aMax : ℝ) (best : Option Vec2),
      0 ≤ aMin → aMin ≤ aMax →
      (∀ q, best = some q → isInsideAll q centers (radii.map fun r => aMax * r)) →
      ∀ p, (fuseLoop centers radii n aMin aMax best).2 = some p →
        isInsideAll p centers
          (radii.map fun r => (fuseLoop centers radii n aMin aMax best).1 * r) := by
  intro n
  induction n with
  | zero =>
    intro aMin aMax best _ _ hinv p hp
    exact hinv p hp
  | succ n ih =>
    intro aMin aMax best h0 h2 hinv p hp
    by_cases hw : aMax - aMin > 1e-4
    · cases hpr : AllCirclesIntersectAtPoint centers
          (radii.map fun r => 0.5 * (aMin + aMax) * r) with
      | some q =>
        rw [fuseLoop_step_pos centers radii n aMin aMax best q hw hpr] at hp ⊢
        refine ih _ _ _ h0 (by linarith) ?_ p hp
        intro q' hq'
        cases hq'
        refine allCirclesIntersectAtPoint_sound _ _ ?_ _ hpr
        intro r' hr'
        rcases List.mem_map.mp hr' with ⟨r0, hr0, rfl⟩
        have := hr r0 hr0
        nlinarith
      | none =>
        rw [fuseLoop_step_neg centers radii n aMin aMax best hw hpr] at hp ⊢
        exact ih _ _ _ (by linarith) (by linarith) hinv p hp
    · rw [fuseLoop_step_done centers radii n aMin aMax best hw] at hp ⊢
      exact hinv p hp

/-- C1. Fusion soundness: whenever the binary search of `GeometricFusion2D`
found an intersecting point (some `AllCirclesIntersectAtPoint` probe
succeeded, so the loop's fused slot is `some p`), the returned fused point is
`p` and `p` lies within `alpha * radius_i + epsilon` of the `i`-th input
center for every `i`, where `alpha` is the returned inflation factor. -/
theorem geometricFusion2D_soundness (positions : List Position) (p : Vec2)
    (hr : NonnegRadii positions)
    (hp : (fuseLoop (fusionCenters positions) (fusionRadii positions) 100 1 10 none).2
      = some p) :
    (GeometricFusion2D positions).2.x = p.x
    ∧ (GeometricFusion2D positions).2.y = p.y
    ∧ isInsideAll p (fusionCenters positions)
        ((fusionRadii positions).map fun r => (GeometricFusion2D positions).1 * r) := by
  have hrr : ∀ r ∈ fusionRadii positions, 0 ≤ r := by
    intro r hrm
    rcases List.mem_map.mp hrm with ⟨e, he, rfl⟩
    exact hr e he
  have hs := fuseLoop_sound _ _ hrr 100 1 10 none (by norm_num) (by norm_num)
    (by intro q h; cases h) p hp
  refine ⟨?_, ?_, hs⟩ <;> simp [GeometricFusion2D, hp]

lemma fuseLoop_succ_stable (centers : List Vec2) (radii : List ℝ) (c : Vec2)
    (hall : ∀ α : ℝ, AllCirclesIntersectAtPoint centers (radii.map fun r => α * r)
      = some c) :
    ∀ (n : Nat) (aMin aMax : ℝ),
      (fuseLoop centers radii n aMin aMax (some c)).2 = some c := by
  intro n
  induction n with
  | zero => intro aMin aMax; rfl
  | succ n ih =>
    intro aMin aMax
    by_cases hw : aMax - aMin > 1e-4
    · rw [fuseLoop_step_pos centers radii n aMin aMax (some c) c hw (hall _)]
      exact ih _ _
    · rw [fuseLoop_step_done centers radii n aMin aMax (some c) hw]

lemma fuseLoop_always_finds (centers : List Vec2) (radii : List ℝ) (c : Vec2)
    (hall : ∀ α : ℝ, AllCirclesIntersectAtPoint centers (radii.map fun r => α * r)
      = some c)
    (n : Nat) (aMin aMax : ℝ) (best : Option Vec2) (hw : aMax - aMin > 1e-4) :
    (fuseLoop centers radii (n + 1) aMin aMax best).2 = some c := by
  rw [fuseLoop_step_pos centers radii n aMin aMax best c hw (hall _)]
  exact fuseLoop_succ_stable centers radii c hall n _ _

/-- Witness for C1 at the single estimate `(0, 0, 1)`: every probe succeeds at
the center, the loop reports it, and the fused point satisfies the distance
bound. -/
theorem geometricFusion2D_soundness_witness :
    NonnegRadii [⟨0, 0, 1⟩]
    ∧ (fuseLoop (fusionCenters [⟨0, 0, 1⟩]) (fusionRadii [⟨0, 0, 1⟩]) 100 1 10 none).2
        = some ⟨0, 0⟩
    ∧ ((GeometricFusion2D [⟨0, 0, 1⟩]).2.x = (⟨0, 0⟩ : Vec2).x
        ∧ (GeometricFusion2D [⟨0, 0, 1⟩]).2.y = (⟨0, 0⟩ : Vec2).y
        ∧ isInsideAll ⟨0, 0⟩ (fusionCenters [⟨0, 0, 1⟩])
            ((fusionRadii [⟨0, 0, 1⟩]).map fun r => (GeometricFusion2D [⟨0, 0, 1⟩]).1 * r)) := by
  have hall : ∀ α : ℝ, AllCirclesIntersectAtPoint (fusionCenters [⟨0, 0, 1⟩])
      ((fusionRadii [⟨0, 0, 1⟩]).map fun r => α * r) = some ⟨0, 0⟩ := by
    intro α
    rfl
  have hnn : NonnegRadii [⟨0, 0, 1⟩] := by
    intro e he
    rcases List.mem_singleton.mp he with rfl
    norm_num
  have hp : (fuseLoop (fusionCenters [⟨0, 0, 1⟩]) (fusionRadii [⟨0, 0, 1⟩]) 100 1 10 none).2
      = some ⟨0, 0⟩ := by
    have h99 : (100 : Nat) = 99 + 1 := rfl
    rw [h99]
    exact fuseLoop_always_finds _ _ _ hall 99 1 10 none (by norm_num)
  exact ⟨hnn, hp, geometricFusion2D_soundness [⟨0, 0, 1⟩] ⟨0, 0⟩ hnn hp⟩

lemma fuseLoop_nofind (centers : List Vec2) (radii : List ℝ)
    (hall : ∀ a : ℝ, 1 ≤ a → a ≤ 10 →
      AllCirclesIntersectAtPoint centers (radii.map fun r => a * r) = none) :
    ∀ (n : Nat) (aMin : ℝ) (best : Option Vec2), 1 ≤ aMin → aMin ≤ 10 →
      fuseLoop centers radii n aMin 10 best = (10, best) := by
  intro n
  induction n with
  | zero => intro aMin best _ _; rfl
  | succ n ih =>
    intro aMin best h1 h2
    by_cases hw : (10 : ℝ) - aMin > 1e-4
    · rw [fuseLoop_step_neg centers radii n aMin 10 best hw
        (hall (0.5 * (aMin + 10)) (by linarith) (by linarith))]
      exact ih _ _ (by linarith) (by linarith)
    · rw [fuseLoop_step_done centers radii n aMin 10 best hw]

/-- C9. `GeometricFusion2D` is total and bounded: the returned alpha always
lies in the bracket `[1, 10]`; and when no probe of the search ever finds a
common point (not even at the maximum inflation), the function still returns a
result — alpha at the upper search bound 10 with the best point found (the
zero value, since none was found) — rather than an error. -/
theorem geometricFusion2D_bounded_best_effort (positions : List Position) :
    (1 ≤ (GeometricFusion2D positions).1 ∧ (GeometricFusion2D positions).1 ≤ 10)
    ∧ (NoProbeSucceeds positions →
        GeometricFusion2D positions = (10, ⟨0, 0, 10⟩)) := by
  constructor
  · have := fuseLoop_bracket (fusionCenters positions) (fusionRadii positions)
      100 1 10 none (by norm_num) (by norm_num) (by norm_num)
    simpa [GeometricFusion2D] using this
  · intro hall
    have h := fuseLoop_nofind _ _ hall 100 1 none (by norm_num) (by norm_num)
    simp [GeometricFusion2D, h]

lemma distance2D_eval (x1 y1 x2 y2 : ℝ) :
    Distance2D ⟨x1, y1⟩ ⟨x2, y2⟩ = Real.sqrt ((x1 - x2) ^ 2 + (y1 - y2) ^ 2) := rfl

lemma isInsideAll_pair (p c1 c2 : Vec2) (r1 r2 : ℝ) :
    isInsideAll p [c1, c2] [r1, r2] ↔
      Distance2D p c1 ≤ r1 + epsilon ∧ Distance2D p c2 ≤ r2 + epsilon := by
  simp [isInsideAll]

lemma allCircles_two_far_zero_radii :
    AllCirclesIntersectAtPoint [⟨0, 0⟩, ⟨1, 0⟩] [0, 0] = none := by
  have hd : Distance2D ⟨0, 0⟩ ⟨1, 0⟩ = 1 := by
    rw [distance2D_eval]
    norm_num
  have hd' : Distance2D ⟨1, 0⟩ ⟨0, 0⟩ = 1 := by
    rw [distance2D_eval]
    norm_num
  have hi : intersectTwoCircles ⟨0, 0⟩ 0 ⟨1, 0⟩ 0 = (0, ⟨0, 0⟩, ⟨0, 0⟩) := by
    rw [intersectTwoCircles, if_pos]
    rw [hd]
    norm_num [epsilon]
  have hni1 : ¬ isInsideAll ⟨0, 0⟩ [⟨0, 0⟩, ⟨1, 0⟩] [0, 0] := by
    rw [isInsideAll_pair]
    rw [hd]
    intro hc
    have := hc.2
    norm_num [epsilon] at this
  have hni2 : ¬ isInsideAll ⟨1, 0⟩ [⟨0, 0⟩, ⟨1, 0⟩] [0, 0] := by
    rw [isInsideAll_pair]
    rw [hd']
    intro hc
    have := hc.1
    norm_num [epsilon] at this
  have hcent : ¬ isInsideAll (centroidVec [⟨0, 0⟩, ⟨1, 0⟩]) [⟨0, 0⟩, ⟨1, 0⟩] [0, 0] := by
    have hc : centroidVec [⟨0, 0⟩, ⟨1, 0⟩] = ⟨1 / 2, 0⟩ := by
      norm_num [centroidVec]
    rw [hc, isInsideAll_pair, distance2D_eval]
    intro hcon
    have h1 := hcon.1
    have : Real.sqrt (((1 : ℝ) / 2 - 0) ^ 2 + ((0 : ℝ) - 0) ^ 2) = 1 / 2 := by
      rw [show ((1 : ℝ) / 2 - 0) ^ 2 + ((0 : ℝ) - 0) ^ 2 = (1 / 2 : ℝ) ^ 2 by norm_num,
        Real.sqrt_sq (by norm_num : (0 : ℝ) ≤ 1 / 2)]
    rw [this] at h1
    norm_num [epsilon] at h1
  have hcand : pairCandidates [(⟨0, 0⟩, (0 : ℝ)), (⟨1, 0⟩, (0 : ℝ))] [⟨0, 0⟩, ⟨1, 0⟩] [0, 0]
      = [] := by
    simp [pairCandidates, allPairs, hi]
  simp [AllCirclesIntersectAtPoint, hcand, dedupPoints, List.filter_cons,
    decide_eq_false hni1, decide_eq_false hni2, List.insertionSort, hcent]

/-- Witness for C9 at two zero-radius estimates a unit apart: no probe ever
succeeds, and the result is the search bound 10 with the zero point. -/
theorem geometricFusion2D_bounded_best_effort_witness :
    NoProbeSucceeds [⟨0, 0, 0⟩, ⟨1, 0, 0⟩]
    ∧ (1 ≤ (GeometricFusion2D [⟨0, 0, 0⟩, ⟨1, 0, 0⟩]).1
        ∧ (GeometricFusion2D [⟨0, 0, 0⟩, ⟨1, 0, 0⟩]).1 ≤ 10)
    ∧ GeometricFusion2D [⟨0, 0, 0⟩, ⟨1, 0, 0⟩] = (10, ⟨0, 0, 10⟩) := by
  have hall : NoProbeSucceeds [⟨0, 0, 0⟩, ⟨1, 0, 0⟩] := by
    intro a _ _
    have hmap : ((fusionRadii [⟨0, 0, 0⟩, ⟨1, 0, 0⟩]).map fun r => a * r)
        = [0, 0] := by
      simp [fusionRadii]
    rw [hmap]
    exact allCircles_two_far_zero_radii
  exact ⟨hall, (geometricFusion2D_bounded_best_effort _).1,
    (geometricFusion2D_bounded_best_effort _).2 hall⟩

/-! ## Theorems: Geometric Fusion Engine, concrete minimality run (claim C3) -/

lemma c3_dist : Distance2D ⟨0, 0⟩ ⟨3, 0⟩ = 3 := by
  rw [distance2D_eval, show ((0 : ℝ) - 3) ^ 2 + ((0 : ℝ) - 0) ^ 2 = 3 ^ 2 by norm_num]
  exact Real.sqrt_sq (by norm_num)

lemma c3_dist' : Distance2D ⟨3, 0⟩ ⟨0, 0⟩ = 3 := by
  rw [distance2D_eval, show ((3 : ℝ) - 0) ^ 2 + ((0 : ℝ) - 0) ^ 2 = 3 ^ 2 by norm_num]
  exact Real.sqrt_sq (by norm_num)

lemma c3_probe_fail (a : ℝ) (h2 : a ≤ 1.49994659423828125) :
    AllCirclesIntersectAtPoint [⟨0, 0⟩, ⟨3, 0⟩] [a, a] = none := by
  have he : epsilon = 1e-9 := rfl
  have hi : intersectTwoCircles ⟨0, 0⟩ a ⟨3, 0⟩ a = (0, ⟨0, 0⟩, ⟨0, 0⟩) := by
    rw [intersectTwoCircles, c3_dist, if_pos]
    left
    rw [he]
    linarith
  have hni1 : ¬ isInsideAll ⟨0, 0⟩ [⟨0, 0⟩, ⟨3, 0⟩] [a, a] := by
    rw [isInsideAll_pair, c3_dist, he]
    intro hc
    linarith [hc.2]
  have hni2 : ¬ isInsideAll ⟨3, 0⟩ [⟨0, 0⟩, ⟨3, 0⟩] [a, a] := by
    rw [isInsideAll_pair, c3_dist', he]
    intro hc
    linarith [hc.1]
  have hcv : centroidVec [(⟨0, 0⟩ : Vec2), ⟨3, 0⟩] = ⟨3 / 2, 0⟩ := by
    norm_num [centroidVec]
  have hdc : Distance2D ⟨3 / 2, 0⟩ ⟨0, 0⟩ = 3 / 2 := by
    rw [distance2D_eval, show ((3 / 2 : ℝ) - 0) ^ 2 + ((0 : ℝ) - 0) ^ 2 = (3 / 2) ^ 2 by
      norm_num]
    exact Real.sqrt_sq (by norm_num)
  have hcent : ¬ isInsideAll (centroidVec [(⟨0, 0⟩ : Vec2), ⟨3, 0⟩]) [⟨0, 0⟩, ⟨3, 0⟩]
      [a, a] := by
    rw [hcv, isInsideAll_pair, hdc, he]
    intro hc
    linarith [hc.1]
  have hcand : pairCandidates [(⟨0, 0⟩, a), (⟨3, 0⟩, a)] [⟨0, 0⟩, ⟨3, 0⟩] [a, a]
      = [] := by
    simp [pairCandidates, allPairs, hi]
  simp [AllCirclesIntersectAtPoint, hcand, dedupPoints, List.filter_cons,
    decide_eq_false hni1, decide_eq_false hni2, List.insertionSort, hcent]

lemma c3_probe_succ (a : ℝ) (h1 : 1.5000152587890625 ≤ a) :
    AllCirclesIntersectAtPoint [⟨0, 0⟩, ⟨3, 0⟩] [a, a]
      = some ⟨3 / 2, 0⟩ := by
  have he : epsilon = 1e-9 := rfl
  have harg : (0 : ℝ) ≤ a * a - 3 / 2 * (3 / 2) := by nlinarith
  have hslb : (0.005 : ℝ) ≤ Real.sqrt (a * a - 3 / 2 * (3 / 2)) := by
    rw [Real.le_sqrt (by norm_num) harg]
    nlinarith
  have hsq2 : Real.sqrt (a * a - 3 / 2 * (3 / 2)) ^ 2 = a * a - 3 / 2 * (3 / 2) :=
    Real.sq_sqrt harg
  have hsnn : (0 : ℝ) ≤ Real.sqrt (a * a - 3 / 2 * (3 / 2)) := Real.sqrt_nonneg _
  have hi : intersectTwoCircles ⟨0, 0⟩ a ⟨3, 0⟩ a
      = (2, ⟨3 / 2, -Real.sqrt (a * a - 3 / 2 * (3 / 2))⟩,
          ⟨3 / 2, Real.sqrt (a * a - 3 / 2 * (3 / 2))⟩) := by
    rw [intersectTwoCircles, c3_dist]
    rw [if_neg]
    · rw [show (a * a - a * a + 3 * 3) / (2 * 3) = (3 / 2 : ℝ) by ring]
      simp only []
      rw [show max (0 : ℝ) (a * a - 3 / 2 * (3 / 2)) = a * a - 3 / 2 * (3 / 2) from
        max_eq_right harg]
      rw [if_neg]
      · simp only [Prod.mk.injEq, Vec2.mk.injEq]
        refine ⟨trivial, ⟨by ring, by ring⟩, by ring, by ring⟩
      · rw [sub_self, abs_zero, he]
        rintro (h | h | h)
        · linarith
        · linarith
        · linarith
    · rw [sub_self, abs_zero, he]
      rintro (h | h | ⟨h, h'⟩)
      · linarith
      · linarith
      · linarith
  have hdst1 : Distance2D ⟨3 / 2, -Real.sqrt (a * a - 3 / 2 * (3 / 2))⟩ ⟨0, 0⟩ = a := by
    rw [distance2D_eval, show ((3 / 2 : ℝ) - 0) ^ 2
        + (-Real.sqrt (a * a - 3 / 2 * (3 / 2)) - 0) ^ 2 = a ^ 2 by
      linear_combination hsq2]
    exact Real.sqrt_sq (by linarith)
  have hdst2 : Distance2D ⟨3 / 2, -Real.sqrt (a * a - 3 / 2 * (3 / 2))⟩ ⟨3, 0⟩ = a := by
    rw [distance2D_eval, show ((3 / 2 : ℝ) - 3) ^ 2
        + (-Real.sqrt (a * a - 3 / 2 * (3 / 2)) - 0) ^ 2 = a ^ 2 by
      linear_combination hsq2]
    exact Real.sqrt_sq (by linarith)
  have hdst3 : Distance2D ⟨3 / 2, Real.sqrt (a * a - 3 / 2 * (3 / 2))⟩ ⟨0, 0⟩ = a := by
    rw [distance2D_eval, show ((3 / 2 : ℝ) - 0) ^ 2
        + (Real.sqrt (a * a - 3 / 2 * (3 / 2)) - 0) ^ 2 = a ^ 2 by
      linear_combination hsq2]
    exact Real.sqrt_sq (by linarith)
  have hdst4 : Distance2D ⟨3 / 2, Real.sqrt (a * a - 3 / 2 * (3 / 2))⟩ ⟨3, 0⟩ = a := by
    rw [distance2D_eval, show ((3 / 2 : ℝ) - 3) ^ 2
        + (Real.sqrt (a * a - 3 / 2 * (3 / 2)) - 0) ^ 2 = a ^ 2 by
      linear_combination hsq2]
    exact Real.sqrt_sq (by linarith)
  have hin1 : isInsideAll ⟨3 / 2, -Real.sqrt (a * a - 3 / 2 * (3 / 2))⟩
      [⟨0, 0⟩, ⟨3, 0⟩] [a, a] := by
    rw [isInsideAll_pair, hdst1, hdst2, he]
    constructor <;> norm_num
  have hin2 : isInsideAll ⟨3 / 2, Real.sqrt (a * a - 3 / 2 * (3 / 2))⟩
      [⟨0, 0⟩, ⟨3, 0⟩] [a, a] := by
    rw [isInsideAll_pair, hdst3, hdst4, he]
    constructor <;> norm_num
  have hcand : pairCandidates [(⟨0, 0⟩, a), (⟨3, 0⟩, a)] [⟨0, 0⟩, ⟨3, 0⟩] [a, a]
      = [⟨3 / 2, -Real.sqrt (a * a - 3 / 2 * (3 / 2))⟩,
          ⟨3 / 2, Real.sqrt (a * a - 3 / 2 * (3 / 2))⟩] := by
    simp [pairCandidates, allPairs, hi, hin1, hin2]
  have hkey : pointKey ⟨3 / 2, Real.sqrt (a * a - 3 / 2 * (3 / 2))⟩
      ≠ pointKey ⟨3 / 2, -Real.sqrt (a * a - 3 / 2 * (3 / 2))⟩ := by
    intro hk
    have hsnd := congrArg Prod.snd hk
    simp only [pointKey] at hsnd
    have hub : round (-Real.sqrt (a * a - 3 / 2 * (3 / 2)) * 1000000000) ≤ 0 := by
      rw [round_eq]
      have hle : -Real.sqrt (a * a - 3 / 2 * (3 / 2)) * 1000000000 + 1 / 2
          ≤ (1 : ℝ) / 2 := by nlinarith
      calc ⌊-Real.sqrt (a * a - 3 / 2 * (3 / 2)) * 1000000000 + 1 / 2⌋
          ≤ ⌊(1 : ℝ) / 2⌋ := Int.floor_le_floor hle
        _ = 0 := by
            rw [Int.floor_eq_zero_iff]
            constructor <;> norm_num
    have hlb : 1 ≤ round (Real.sqrt (a * a - 3 / 2 * (3 / 2)) * 1000000000) := by
      rw [round_eq, Int.le_floor]
      push_cast
      nlinarith
    omega
  have hded : dedupPoints [] [(⟨3 / 2, -Real.sqrt (a * a - 3 / 2 * (3 / 2))⟩ : Vec2),
      ⟨3 / 2, Real.sqrt (a * a - 3 / 2 * (3 / 2))⟩]
      = [⟨3 / 2, -Real.sqrt (a * a - 3 / 2 * (3 / 2))⟩,
          ⟨3 / 2, Real.sqrt (a * a - 3 / 2 * (3 / 2))⟩] := by
    simp [dedupPoints, hkey]
  have hcentroid : centroidVec [(⟨3 / 2, -Real.sqrt (a * a - 3 / 2 * (3 / 2))⟩ : Vec2),
      ⟨3 / 2, Real.sqrt (a * a - 3 / 2 * (3 / 2))⟩] = ⟨3 / 2, 0⟩ := by
    simp only [centroidVec, List.map, List.sum_cons, List.sum_nil, List.length_cons,
      List.length_nil, Vec2.mk.injEq]
    constructor <;> [norm_num; ring_nf]
  have hdc : Distance2D ⟨3 / 2, 0⟩ ⟨0, 0⟩ = 3 / 2 := by
    rw [distance2D_eval, show ((3 / 2 : ℝ) - 0) ^ 2 + ((0 : ℝ) - 0) ^ 2 = (3 / 2) ^ 2 by
      norm_num]
    exact Real.sqrt_sq (by norm_num)
  have hdc' : Distance2D ⟨3 / 2, 0⟩ ⟨3, 0⟩ = 3 / 2 := by
    rw [distance2D_eval, show ((3 / 2 : ℝ) - 3) ^ 2 + ((0 : ℝ) - 0) ^ 2 = (3 / 2) ^ 2 by
      norm_num]
    exact Real.sqrt_sq (by norm_num)
  have hinc : isInsideAll (⟨3 / 2, 0⟩ : Vec2) [⟨0, 0⟩, ⟨3, 0⟩] [a, a] := by
    rw [isInsideAll_pair, hdc, hdc', he]
    constructor <;> linarith
  simp only [AllCirclesIntersectAtPoint, List.zip_cons_cons, List.zip_nil_left,
    List.zip_nil_right, hcand, hded, hcentroid]
  rw [if_pos hinc]

lemma fuseLoop_step_pos2 (centers : List Vec2) (radii : List ℝ) (n : Nat)
    (aMin aMax m : ℝ) (best : Option Vec2) (q : Vec2)
    (hw : aMax - aMin > 1e-4) (hm : 0.5 * (aMin + aMax) = m)
    (hpr : AllCirclesIntersectAtPoint centers (radii.map fun r => m * r) = some q) :
    fuseLoop centers radii (n + 1) aMin aMax best
      = fuseLoop centers radii n aMin m (some q) := by
  subst hm
  exact fuseLoop_step_pos centers radii n aMin aMax best q hw hpr

lemma fuseLoop_step_neg2 (centers : List Vec2) (radii : List ℝ) (n : Nat)
    (aMin aMax m : ℝ) (best : Option Vec2)
    (hw : aMax - aMin > 1e-4) (hm : 0.5 * (aMin + aMax) = m)
    (hpr : AllCirclesIntersectAtPoint centers (radii.map fun r => m * r) = none) :
    fuseLoop centers radii (n + 1) aMin aMax best
      = fuseLoop centers radii n m aMax best := by
  subst hm
  exact fuseLoop_step_neg centers radii n aMin aMax best hw hpr

lemma c3_probe_succ_map (m : ℝ) (h1 : 1.5000152587890625 ≤ m) :
    AllCirclesIntersectAtPoint [⟨0, 0⟩, ⟨3, 0⟩] (([1, 1] : List ℝ).map fun r => m * r)
      = some ⟨3 / 2, 0⟩ := by
  rw [show (([1, 1] : List ℝ).map fun r => m * r) = [m, m] by simp]
  exact c3_probe_succ m h1

lemma c3_probe_fail_map (m : ℝ) (h2 : m ≤ 1.49994659423828125) :
    AllCirclesIntersectAtPoint [⟨0, 0⟩, ⟨3, 0⟩] (([1, 1] : List ℝ).map fun r => m * r)
      = none := by
  rw [show (([1, 1] : List ℝ).map fun r => m * r) = [m, m] by simp]
  exact c3_probe_fail m h2

lemma c3_loop :
    fuseLoop [⟨0, 0⟩, ⟨3, 0⟩] [1, 1] 100 1 10 none
      = (1.5000152587890625, some ⟨3 / 2, 0⟩) := by
  rw [show (100 : Nat) = 99 + 1 from rfl,
    fuseLoop_step_pos2 [⟨0, 0⟩, ⟨3, 0⟩] [1, 1] 99 1 10 5.5 none
      ⟨3 / 2, 0⟩ (by norm_num) (by norm_num) (c3_probe_succ_map 5.5 (by norm_num))]
  rw [show (99 : Nat) = 98 + 1 from rfl,
    fuseLoop_step_pos2 [⟨0, 0⟩, ⟨3, 0⟩] [1, 1] 98 1 5.5 3.25 (some ⟨3 / 2, 0⟩)
      ⟨3 / 2, 0⟩ (by norm_num) (by norm_num) (c3_probe_succ_map 3.25 (by norm_num))]
  rw [show (98 : Nat) = 97 + 1 from rfl,
    fuseLoop_step_pos2 [⟨0, 0⟩, ⟨3, 0⟩] [1, 1] 97 1 3.25 2.125 (some ⟨3 / 2, 0⟩)
      ⟨3 / 2, 0⟩ (by norm_num) (by norm_num) (c3_probe_succ_map 2.125 (by norm_num))]
  rw [show (97 : Nat) = 96 + 1 from rfl,
    fuseLoop_step_pos2 [⟨0, 0⟩, ⟨3, 0⟩] [1, 1] 96 1 2.125 1.5625 (some ⟨3 / 2, 0⟩)
      ⟨3 / 2, 0⟩ (by norm_num) (by norm_num) (c3_probe_succ_map 1.5625 (by norm_num))]
  rw [show (96 : Nat) = 95 + 1 from rfl,
    fuseLoop_step_neg2 [⟨0, 0⟩, ⟨3, 0⟩] [1, 1] 95 1 1.5625 1.28125 (some ⟨3 / 2, 0⟩)
      (by norm_num) (by norm_num) (c3_probe_fail_map 1.28125 (by norm_num))]
  rw [show (95 : Nat) = 94 + 1 from rfl,
    fuseLoop_step_neg2 [⟨0, 0⟩, ⟨3, 0⟩] [1, 1] 94 1.28125 1.5625 1.421875 (some ⟨3 / 2, 0⟩)
      (by norm_num) (by norm_num) (c3_probe_fail_map 1.421875 (by norm_num))]
  rw [show (94 : Nat) = 93 + 1 from rfl,
    fuseLoop_step_neg2 [⟨0, 0⟩, ⟨3, 0⟩] [1, 1] 93 1.421875 1.5625 1.4921875 (some ⟨3 / 2, 0⟩)
      (by norm_num) (by norm_num) (c3_probe_fail_map 1.4921875 (by norm_num))]
  rw [show (93 : Nat) = 92 + 1 from rfl,
    fuseLoop_step_pos2 [⟨0, 0⟩, ⟨3, 0⟩] [1, 1] 92 1.4921875 1.5625 1.52734375 (some ⟨3 / 2, 0⟩)
      ⟨3 / 2, 0⟩ (by norm_num) (by norm_num) (c3_probe_succ_map 1.52734375 (by norm_num))]
  rw [show (92 : Nat) = 91 + 1 from rfl,
    fuseLoop_step_pos2 [⟨0, 0⟩, ⟨3, 0⟩] [1, 1] 91 1.4921875 1.52734375 1.509765625 (some ⟨3 / 2, 0⟩)
      ⟨3 / 2, 0⟩ (by norm_num) (by norm_num) (c3_probe_succ_map 1.509765625 (by norm_num))]
  rw [show (91 : Nat) = 90 + 1 from rfl,
    fuseLoop_step_pos2 [⟨0, 0⟩, ⟨3, 0⟩] [1, 1] 90 1.4921875 1.509765625 1.5009765625 (some ⟨3 / 2, 0⟩)
      ⟨3 / 2, 0⟩ (by norm_num) (by norm_num) (c3_probe_succ_map 1.5009765625 (by norm_num))]
  rw [show (90 : Nat) = 89 + 1 from rfl,
    fuseLoop_step_neg2 [⟨0, 0⟩, ⟨3, 0⟩] [1, 1] 89 1.4921875 1.5009765625 1.49658203125 (some ⟨3 / 2, 0⟩)
      (by norm_num) (by norm_num) (c3_probe_fail_map 1.49658203125 (by norm_num))]
  rw [show (89 : Nat) = 88 + 1 from rfl,
    fuseLoop_step_neg2 [⟨0, 0⟩, ⟨3, 0⟩] [1, 1] 88 1.49658203125 1.5009765625 1.498779296875 (some ⟨3 / 2, 0⟩)
      (by norm_num) (by norm_num) (c3_probe_fail_map 1.498779296875 (by norm_num))]
  rw [show (88 : Nat) = 87 + 1 from rfl,
    fuseLoop_step_neg2 [⟨0, 0⟩, ⟨3, 0⟩] [1, 1] 87 1.498779296875 1.5009765625 1.4998779296875 (some ⟨3 / 2, 0⟩)
      (by norm_num) (by norm_num) (c3_probe_fail_map 1.4998779296875 (by norm_num))]
  rw [show (87 : Nat) = 86 + 1 from rfl,
    fuseLoop_step_pos2 [⟨0, 0⟩, ⟨3, 0⟩] [1, 1] 86 1.4998779296875 1.5009765625 1.50042724609375 (some ⟨3 / 2, 0⟩)
      ⟨3 / 2, 0⟩ (by norm_num) (by norm_num) (c3_probe_succ_map 1.50042724609375 (by norm_num))]
  rw [show (86 : Nat) = 85 + 1 from rfl,
    fuseLoop_step_pos2 [⟨0, 0⟩, ⟨3, 0⟩] [1, 1] 85 1.4998779296875 1.50042724609375 1.500152587890625 (some ⟨3 / 2, 0⟩)
      ⟨3 / 2, 0⟩ (by norm_num) (by norm_num) (c3_probe_succ_map 1.500152587890625 (by norm_num))]
  rw [show (85 : Nat) = 84 + 1 from rfl,
    fuseLoop_step_pos2 [⟨0, 0⟩, ⟨3, 0⟩] [1, 1] 84 1.4998779296875 1.500152587890625 1.5000152587890625 (some ⟨3 / 2, 0⟩)
      ⟨3 / 2, 0⟩ (by norm_num) (by norm_num) (c3_probe_succ_map 1.5000152587890625 (by norm_num))]
  rw [show (84 : Nat) = 83 + 1 from rfl,
    fuseLoop_step_neg2 [⟨0, 0⟩, ⟨3, 0⟩] [1, 1] 83 1.4998779296875 1.5000152587890625 1.49994659423828125 (some ⟨3 / 2, 0⟩)
      (by norm_num) (by norm_num) (c3_probe_fail_map 1.49994659423828125 (by norm_num))]
  rw [show (83 : Nat) = 82 + 1 from rfl,
    fuseLoop_step_done [⟨0, 0⟩, ⟨3, 0⟩] [1, 1] 82 1.49994659423828125 1.5000152587890625 (some ⟨3 / 2, 0⟩) (by norm_num)]

/-- C3. Fusion minimality on the two-estimate input with centers `(0,0)` and
`(3,0)` at distance 3 and both radii 1: the returned alpha is the dyadic
`1.5000152587890625`, equal to `d/(r1+r2) = 1.5` within the binary-search
convergence tolerance `1e-4`, and the fused point `(1.5, 0)` lies on the
segment joining the two centers. -/
theorem geometricFusion2D_minimality_two_circles :
    (GeometricFusion2D [⟨0, 0, 1⟩, ⟨3, 0, 1⟩]).1 = 1.5000152587890625
    ∧ |(GeometricFusion2D [⟨0, 0, 1⟩, ⟨3, 0, 1⟩]).1 - 1.5| ≤ 1e-4
    ∧ (GeometricFusion2D [⟨0, 0, 1⟩, ⟨3, 0, 1⟩]).2.x = 3 / 2
    ∧ (GeometricFusion2D [⟨0, 0, 1⟩, ⟨3, 0, 1⟩]).2.y = 0
    ∧ 0 ≤ (GeometricFusion2D [⟨0, 0, 1⟩, ⟨3, 0, 1⟩]).2.x
    ∧ (GeometricFusion2D [⟨0, 0, 1⟩, ⟨3, 0, 1⟩]).2.x ≤ 3 := by
  have hfc : fusionCenters [⟨0, 0, 1⟩, ⟨3, 0, 1⟩] = [⟨0, 0⟩, ⟨3, 0⟩] := by
    simp [fusionCenters]
  have hfr : fusionRadii [⟨0, 0, 1⟩, ⟨3, 0, 1⟩] = [1, 1] := by
    simp [fusionRadii]
  simp only [GeometricFusion2D, hfc, hfr, c3_loop, Option.getD_some]
  norm_num
  rw [abs_of_nonneg (by norm_num : (0 : ℝ) ≤ 1 / 65536)]
  norm_num

/-! ## Theorems: Spatial History Index (claim C10) -/

/-- C10. `RadiusSearch` returns exactly the recorded points whose Euclidean
distance to the query point is at most the radius (a point at exactly the
radius is included), and consequently the orchestrator's refinement step
leaves the fused coordinates unchanged when no recorded point lies within the
fused radius. -/
theorem radiusSearch_spec (points : List Point) (x y radius : ℝ) (q : Point)
    (hr : 0 ≤ radius) :
    (q ∈ RadiusSearch points x y radius ↔
      q ∈ points ∧ Real.sqrt ((q.x - x) ^ 2 + (q.y - y) ^ 2) ≤ radius)
    ∧ (RadiusSearch points x y radius = [] →
        refineWithCloud points x y radius = (x, y)) := by
  constructor
  · rw [RadiusSearch, List.mem_filter]
    constructor
    · rintro ⟨hm, hd⟩
      rw [decide_eq_true_eq] at hd
      refine ⟨hm, ?_⟩
      rw [Real.sqrt_le_left hr]
      nlinarith [hd]
    · rintro ⟨hm, hd⟩
      refine ⟨hm, ?_⟩
      rw [decide_eq_true_eq]
      rw [Real.sqrt_le_left hr] at hd
      nlinarith [hd]
  · intro h
    simp [refineWithCloud, h]

/-- Witness for C10: a single recorded point at exactly the query radius is
returned (boundary inclusion). -/
theorem radiusSearch_spec_witness :
    (0 : ℝ) ≤ 1
    ∧ ((⟨1, 0⟩ : Point) ∈ RadiusSearch [⟨1, 0⟩] 0 0 1 ↔
        (⟨1, 0⟩ : Point) ∈ ([⟨1, 0⟩] : List Point)
          ∧ Real.sqrt (((⟨1, 0⟩ : Point).x - 0) ^ 2 + ((⟨1, 0⟩ : Point).y - 0) ^ 2) ≤ 1)
    ∧ (RadiusSearch [⟨1, 0⟩] 0 0 1 = [] → refineWithCloud [⟨1, 0⟩] 0 0 1 = (0, 0)) := by
  exact ⟨by norm_num, (radiusSearch_spec [⟨1, 0⟩] 0 0 1 ⟨1, 0⟩ (by norm_num)).1,
    (radiusSearch_spec [⟨1, 0⟩] 0 0 1 ⟨1, 0⟩ (by norm_num)).2⟩

/-! ## Theorems: Rigid Aligner, degenerate input (claim C4) -/

/-- C4. Degenerate input — either point set empty, or the two sets of
mismatched cardinality — makes `Procrustes` fail with the `InvalidInput`
condition (in Go: the warning-and-empty-return sentinel), for every SVD
oracle, rather than running the alignment. -/
theorem procrustes_invalid_input (svd : Mat2 → SVDResult) (source target : List Point)
    (h : source.length = 0 ∨ target.length = 0 ∨ source.length ≠ target.length) :
    Procrustes svd source target = .error .invalidInput := by
  rw [Procrustes.eq_def, if_pos h]

/-- Witness for C4 at a mismatched pair (one source point, no target point). -/
theorem procrustes_invalid_input_witness :
    (([⟨0, 0⟩] : List Point).length = 0 ∨ ([] : List Point).length = 0
      ∨ ([⟨0, 0⟩] : List Point).length ≠ ([] : List Point).length)
    ∧ Procrustes (fun _ => ⟨Mat2.one, 0, 0, Mat2.one⟩) [⟨0, 0⟩] []
        = .error .invalidInput := by
  refine ⟨by simp, procrustes_invalid_input _ _ _ (by simp)⟩

/-! ## Theorems: Rigid Aligner, self-alignment identity (claim C5) -/

lemma covOf_quad (l : List Point) (w : Point) :
    dotP w ((covOf l).mulVec w) = (l.map fun p => dotP p w ^ 2).sum := by
  induction l with
  | nil => simp [covOf, dotP, Mat2.mulVec]
  | cons p rest ih =>
    simp only [covOf, List.map_cons, List.sum_cons, dotP, Mat2.mulVec] at ih ⊢
    linear_combination ih

lemma covOf_quad_nonneg (l : List Point) (w : Point) :
    0 ≤ dotP w ((covOf l).mulVec w) := by
  rw [covOf_quad]
  refine List.sum_nonneg ?_
  intro x hx
  rcases List.mem_map.mp hx with ⟨p, _, rfl⟩
  exact sq_nonneg _

lemma covOf_symm (l : List Point) : (covOf l).b = (covOf l).c := by
  simp only [covOf]
  exact congrArg List.sum (List.map_congr_left fun p _ => mul_comm p.x p.y)

lemma sum_sq_eq_zero {l : List Point} {f : Point → ℝ}
    (h : (l.map fun p => f p ^ 2).sum = 0) : ∀ p ∈ l, f p = 0 := by
  induction l with
  | nil => intro p hp; simp at hp
  | cons a rest ih =>
    simp only [List.map_cons, List.sum_cons] at h
    have hrest : 0 ≤ (rest.map fun p => f p ^ 2).sum := by
      refine List.sum_nonneg ?_
      intro x hx
      rcases List.mem_map.mp hx with ⟨p, _, rfl⟩
      exact sq_nonneg _
    intro p hp
    rcases List.mem_cons.mp hp with rfl | hp
    · have ha : f p ^ 2 = 0 := by nlinarith [sq_nonneg (f p)]
      exact pow_eq_zero_iff two_ne_zero |>.mp ha
    · exact ih (by nlinarith [sq_nonneg (f a)]) p hp

lemma varSource_eq_trace (l : List Point) :
    (l.map fun p => p.x * p.x + p.y * p.y).sum = (covOf l).a + (covOf l).d := by
  induction l with
  | nil => simp [covOf]
  | cons p rest ih =>
    simp only [covOf, List.map_cons, List.sum_cons] at ih ⊢
    linarith

lemma rows_orthonormal (va vb vc vd : ℝ) (h1 : va * va + vc * vc = 1)
    (h12 : va * vb + vc * vd = 0) (h2 : vb * vb + vd * vd = 1) :
    va * va + vb * vb = 1 ∧ va * vc + vb * vd = 0 ∧ vc * vc + vd * vd = 1 := by
  have hsq : va * va * (vb * vb) = vc * vc * (vd * vd) := by
    linear_combination (va * vb - vc * vd) * h12
  have hb2c2 : vb * vb = vc * vc := by
    linear_combination hsq + vc * vc * h2 - vb * vb * h1
  have hvat : va * va * vc + va * vb * vd = 0 := by
    linear_combination vd * h12 + vc * h1 - vc * h2 + vc * hb2c2
  have hvct : va * vc * vc + vb * vc * vd = 0 := by
    linear_combination vb * h12 - va * hb2c2
  refine ⟨by linarith, ?_, by linarith⟩
  linear_combination va * hvat + vc * hvct - (va * vc + vb * vd) * h1

/-- Core |SVD argument for self-alignment: given orthonormal columns of `U` and
`V`, descending nonnegative singular values, and `U S Vᵀ = Σ cᵢ cᵢᵀ` over the
centered points, the singular-value sum equals the trace (the source
variance), and the rotation `V Uᵀ` is either exactly the identity or — in the
degenerate collinear/coincident cases — both it and its reflection-corrected
variant fix every centered point. All matrices are given componentwise. -/
lemma svd_self_core (cs : List Point) (ua ub uc ud va vb vc vd s1 s2 : ℝ)
    (hu1 : ua * ua + uc * uc = 1) (hu12 : ua * ub + uc * ud = 0)
    (hu2 : ub * ub + ud * ud = 1)
    (hv1 : va * va + vc * vc = 1) (hv12 : va * vb + vc * vd = 0)
    (hv2 : vb * vb + vd * vd = 1)
    (h21 : s2 ≤ s1) (h2nn : 0 ≤ s2)
    (hHa : s1 * ua * va + s2 * ub * vb = (covOf cs).a)
    (hHb : s1 * ua * vc + s2 * ub * vd = (covOf cs).b)
    (hHc : s1 * uc * va + s2 * ud * vb = (covOf cs).c)
    (hHd : s1 * uc * vc + s2 * ud * vd = (covOf cs).d) :
    s1 + s2 = (covOf cs).a + (covOf cs).d
    ∧ ((⟨va * ua + vb * ub, va * uc + vb * ud,
          vc * ua + vd * ub, vc * uc + vd * ud⟩ : Mat2) = Mat2.one
      ∨ ∀ q ∈ cs,
          ((⟨va * ua + vb * ub, va * uc + vb * ud,
              vc * ua + vd * ub, vc * uc + vd * ud⟩ : Mat2).mulVec q = q
          ∧ ((⟨va * ua + -vb * ub, va * uc + -vb * ud,
              vc * ua + -vd * ub, vc * uc + -vd * ud⟩ : Mat2).mulVec q = q))) := by
  have hsym := covOf_symm cs
  have hquad := covOf_quad_nonneg cs
  have hv1x : (covOf cs).a * va + (covOf cs).b * vc = s1 * ua := by
    linear_combination (-va) * hHa + (-vc) * hHb + (s1 * ua) * hv1 + (s2 * ub) * hv12
  have hv1y : (covOf cs).c * va + (covOf cs).d * vc = s1 * uc := by
    linear_combination (-va) * hHc + (-vc) * hHd + (s1 * uc) * hv1 + (s2 * ud) * hv12
  have hv2x : (covOf cs).a * vb + (covOf cs).b * vd = s2 * ub := by
    linear_combination (-vb) * hHa + (-vd) * hHb + (s1 * ua) * hv12 + (s2 * ub) * hv2
  have hv2y : (covOf cs).c * vb + (covOf cs).d * vd = s2 * ud := by
    linear_combination (-vb) * hHc + (-vd) * hHd + (s1 * uc) * hv12 + (s2 * ud) * hv2
  have hu1x : (covOf cs).a * ua + (covOf cs).b * uc = s1 * va := by
    linear_combination (-ua) * hHa + (-uc) * hHc + (s1 * va) * hu1 + (s2 * vb) * hu12
      + uc * hsym
  have hu1y : (covOf cs).c * ua + (covOf cs).d * uc = s1 * vc := by
    linear_combination (-ua) * hHb + (-uc) * hHd + (s1 * vc) * hu1 + (s2 * vd) * hu12
      + (-ua) * hsym
  have hu2x : (covOf cs).a * ub + (covOf cs).b * ud = s2 * vb := by
    linear_combination (-ub) * hHa + (-ud) * hHc + (s1 * va) * hu12 + (s2 * vb) * hu2
      + ud * hsym
  have hu2y : (covOf cs).c * ub + (covOf cs).d * ud = s2 * vd := by
    linear_combination (-ub) * hHb + (-ud) * hHd + (s1 * vc) * hu12 + (s2 * vd) * hu2
      + (-ub) * hsym
  have key1 : 0 < s1 → ua = va ∧ uc = vc := by
    intro hs1
    have hq := hquad ⟨ua - va, uc - vc⟩
    have hval : dotP ⟨ua - va, uc - vc⟩ ((covOf cs).mulVec ⟨ua - va, uc - vc⟩)
        = -s1 * ((ua - va) ^ 2 + (uc - vc) ^ 2) := by
      simp only [dotP, Mat2.mulVec]
      linear_combination (ua - va) * hu1x - (ua - va) * hv1x
        + (uc - vc) * hu1y - (uc - vc) * hv1y
    rw [hval] at hq
    have hN : (ua - va) ^ 2 + (uc - vc) ^ 2 ≤ 0 := by
      by_contra hpos
      push_neg at hpos
      linarith [mul_pos hs1 hpos]
    have hA : (ua - va) ^ 2 = 0 :=
      le_antisymm (by linarith [sq_nonneg (uc - vc)]) (sq_nonneg _)
    have hB : (uc - vc) ^ 2 = 0 :=
      le_antisymm (by linarith [sq_nonneg (ua - va)]) (sq_nonneg _)
    exact ⟨sub_eq_zero.mp (pow_eq_zero_iff two_ne_zero |>.mp hA),
      sub_eq_zero.mp (pow_eq_zero_iff two_ne_zero |>.mp hB)⟩
  have key2 : 0 < s2 → ub = vb ∧ ud = vd := by
    intro hs2
    have hq := hquad ⟨ub - vb, ud - vd⟩
    have hval : dotP ⟨ub - vb, ud - vd⟩ ((covOf cs).mulVec ⟨ub - vb, ud - vd⟩)
        = -s2 * ((ub - vb) ^ 2 + (ud - vd) ^ 2) := by
      simp only [dotP, Mat2.mulVec]
      linear_combination (ub - vb) * hu2x - (ub - vb) * hv2x
        + (ud - vd) * hu2y - (ud - vd) * hv2y
    rw [hval] at hq
    have hN : (ub - vb) ^ 2 + (ud - vd) ^ 2 ≤ 0 := by
      by_contra hpos
      push_neg at hpos
      linarith [mul_pos hs2 hpos]
    have hA : (ub - vb) ^ 2 = 0 :=
      le_antisymm (by linarith [sq_nonneg (ud - vd)]) (sq_nonneg _)
    have hB : (ud - vd) ^ 2 = 0 :=
      le_antisymm (by linarith [sq_nonneg (ub - vb)]) (sq_nonneg _)
    exact ⟨sub_eq_zero.mp (pow_eq_zero_iff two_ne_zero |>.mp hA),
      sub_eq_zero.mp (pow_eq_zero_iff two_ne_zero |>.mp hB)⟩
  have h1nn : 0 ≤ s1 := le_trans h2nn h21
  rcases h2nn.lt_or_eq with hs2 | hs2
  · obtain ⟨he1a, he1c⟩ := key1 (lt_of_lt_of_le hs2 h21)
    obtain ⟨he2b, he2d⟩ := key2 hs2
    subst he1a he1c he2b he2d
    constructor
    · linear_combination hHa + hHd - s1 * hv1 - s2 * hv2
    · left
      obtain ⟨hr1, hr2, hr3⟩ := rows_orthonormal _ _ _ _ hv1 hv12 hv2
      simp only [Mat2.one, Mat2.mk.injEq]
      exact ⟨by linear_combination hr1, by linear_combination hr2,
        by linear_combination hr2, by linear_combination hr3⟩
  · rcases h1nn.lt_or_eq with hs1 | hs1
    · obtain ⟨he1a, he1c⟩ := key1 hs1
      subst he1a he1c
      constructor
      · linear_combination hHa + hHd - s1 * hv1 - (1 - ub * vb - ud * vd) * hs2
      · right
        intro q hq
        obtain ⟨qx, qy⟩ := q
        have hHw : (covOf cs).mulVec ⟨-uc, ua⟩ = ⟨0, 0⟩ := by
          simp only [Mat2.mulVec, Point.mk.injEq]
          constructor
          · linear_combination uc * hHa + (-ua) * hHb
              + (uc * ub * vb - ua * ub * vd) * hs2
          · linear_combination uc * hHc + (-ua) * hHd
              + (uc * ud * vb - ua * ud * vd) * hs2
        have hsum : ((cs.map fun p => dotP p ⟨-uc, ua⟩ ^ 2).sum) = 0 := by
          have hcq := covOf_quad cs ⟨-uc, ua⟩
          rw [hHw] at hcq
          simpa [dotP] using hcq.symm
        have hpw := sum_sq_eq_zero hsum ⟨qx, qy⟩ hq
        simp only [dotP] at hpw
        have hqx : qx = (qx * ua + qy * uc) * ua := by
          linear_combination (-qx) * hv1 + (-uc) * hpw
        have hqy : qy = (qx * ua + qy * uc) * uc := by
          linear_combination (-qy) * hv1 + ua * hpw
        constructor
        · simp only [Mat2.mulVec, Point.mk.injEq]
          constructor
          · linear_combination (vb * ub - 1) * hqx + (vb * ud) * hqy
              + (vb * (qx * ua + qy * uc)) * hu12
          · linear_combination (vd * ub) * hqx + (vd * ud - 1) * hqy
              + (vd * (qx * ua + qy * uc)) * hu12
        · simp only [Mat2.mulVec, Point.mk.injEq]
          constructor
          · linear_combination (-vb * ub - 1) * hqx + (-vb * ud) * hqy
              + (-vb * (qx * ua + qy * uc)) * hu12
          · linear_combination (-vd * ub) * hqx + (-vd * ud - 1) * hqy
              + (-vd * (qx * ua + qy * uc)) * hu12
    · have hA0 : (covOf cs).a = 0 := by
        linear_combination (-1) * hHa + (-(ua * va)) * hs1 + (-(ub * vb)) * hs2
      have hD0 : (covOf cs).d = 0 := by
        linear_combination (-1) * hHd + (-(uc * vc)) * hs1 + (-(ud * vd)) * hs2
      have hxsum : ((cs.map fun p => Point.x p ^ 2).sum) = 0 := by
        have : (cs.map fun p => Point.x p ^ 2) = cs.map fun p => p.x * p.x := by
          exact List.map_congr_left fun p _ => sq (p.x) ▸ by ring
        rw [this]
        simpa [covOf] using hA0
      have hysum : ((cs.map fun p => Point.y p ^ 2).sum) = 0 := by
        have : (cs.map fun p => Point.y p ^ 2) = cs.map fun p => p.y * p.y := by
          exact List.map_congr_left fun p _ => sq (p.y) ▸ by ring
        rw [this]
        simpa [covOf] using hD0
      constructor
      · linear_combination (-1) * hA0 + (-1) * hD0 + (-1) * hs1 + (-1) * hs2
      · right
        intro q hq
        have hqx := sum_sq_eq_zero hxsum q hq
        have hqy := sum_sq_eq_zero hysum q hq
        obtain ⟨qx, qy⟩ := q
        simp only at hqx hqy
        subst hqx hqy
        constructor <;>
          · simp only [Mat2.mulVec, Point.mk.injEq]
            constructor <;> ring

lemma centerPoints_add (l : List Point) (c : Point) :
    (centerPoints l c).map (fun p => (⟨p.x + c.x, p.y + c.y⟩ : Point)) = l := by
  rw [centerPoints, List.map_map]
  have hcomp : ((fun p => (⟨p.x + c.x, p.y + c.y⟩ : Point))
      ∘ fun p => (⟨p.x - c.x, p.y - c.y⟩ : Point)) = id := by
    funext p
    obtain ⟨px, py⟩ := p
    simp
  rw [hcomp, List.map_id]

lemma zip_self_eq (l : List Point) : l.zip l = l.map fun p => (p, p) := by
  induction l with
  | nil => rfl
  | cons p rest ih => simp [ih]

lemma computeCov_self (l : List Point) (hne : l.length ≠ 0) :
    computeCovarianceMatrix l l = some (covOf l) := by
  rw [computeCovarianceMatrix, if_neg (by simp [hne])]
  simp only [covOf, zip_self_eq, List.map_map]
  exact congrArg some rfl

/-- C5. Alignment identity: aligning a point set with at least two points to
itself yields exactly the input points, the target centroid, and scale 1; and
the rotation matrix the code computes has zero net effect on every centered
point. The SVD oracle may return any valid decomposition of the
self-covariance matrix. -/
theorem procrustes_self_identity (svd : Mat2 → SVDResult) (P : List Point) (q : Point)
    (h2 : 2 ≤ P.length)
    (hsvd : IsSVDOf (procrustesSelfCov P) (svd (procrustesSelfCov P)))
    (hq : q ∈ centerPoints P (centroid P)) :
    Procrustes svd P P = .ok (P, centroid P, 1)
    ∧ (procrustesRot (svd (procrustesSelfCov P))).mulVec q = q := by
  obtain ⟨hU, hV, h21, h2nn, hH⟩ := hsvd
  have hlen0 : P.length ≠ 0 := by omega
  have hclen : (centerPoints P (centroid P)).length ≠ 0 := by
    simpa [centerPoints] using hlen0
  rw [Procrustes.eq_def]
  rw [if_neg (by simp [hlen0]), if_neg (by omega)]
  simp only [computeCov_self _ hclen]
  simp only [procrustesSelfCov] at hU hV h21 h2nn hH ⊢
  revert hU hV h21 h2nn hH
  generalize svd (covOf (centerPoints P (centroid P))) = r
  intro hU hV h21 h2nn hH
  obtain ⟨U, s1, s2, V⟩ := r
  obtain ⟨Ua, Ub, Uc, Ud⟩ := U
  obtain ⟨Va, Vb, Vc, Vd⟩ := V
  simp only [Mat2.transpose, Mat2.mul, Mat2.one, Mat2.mk.injEq] at hU hV
  obtain ⟨hu1, hu12, hu12', hu2⟩ := hU
  obtain ⟨hv1, hv12, hv12', hv2⟩ := hV
  have hHa := congrArg Mat2.a hH
  have hHb := congrArg Mat2.b hH
  have hHc := congrArg Mat2.c hH
  have hHd := congrArg Mat2.d hH
  simp only [Mat2.mul, Mat2.transpose, diagMat] at hHa hHb hHc hHd
  have hHa' : s1 * Ua * Va + s2 * Ub * Vb
      = (covOf (centerPoints P (centroid P))).a := by linear_combination hHa
  have hHb' : s1 * Ua * Vc + s2 * Ub * Vd
      = (covOf (centerPoints P (centroid P))).b := by linear_combination hHb
  have hHc' : s1 * Uc * Va + s2 * Ud * Vb
      = (covOf (centerPoints P (centroid P))).c := by linear_combination hHc
  have hHd' : s1 * Uc * Vc + s2 * Ud * Vd
      = (covOf (centerPoints P (centroid P))).d := by linear_combination hHd
  have hcore := svd_self_core (centerPoints P (centroid P)) Ua Ub Uc Ud Va Vb Vc Vd s1 s2
    hu1 hu12 hu2 hv1 hv12 hv2 h21 h2nn hHa' hHb' hHc' hHd'
  have hvar := varSource_eq_trace (centerPoints P (centroid P))
  have hscale : (if ((centerPoints P (centroid P)).map fun p =>
      p.x * p.x + p.y * p.y).sum > epsilon then
        (s1 + s2) / ((centerPoints P (centroid P)).map fun p => p.x * p.x + p.y * p.y).sum
      else 1) = 1 := by
    by_cases hv : ((centerPoints P (centroid P)).map fun p => p.x * p.x + p.y * p.y).sum
        > epsilon
    · rw [if_pos hv]
      have heq : s1 + s2
          = ((centerPoints P (centroid P)).map fun p => p.x * p.x + p.y * p.y).sum :=
        hcore.1.trans hvar.symm
      rw [heq]
      exact div_self (ne_of_gt (lt_trans epsilon_pos hv))
    · rw [if_neg hv]
  simp only [Mat2.mul, Mat2.transpose, negLastCol, procrustesRot]
  rcases hcore.2 with hid | hfix
  · have hid' : (⟨Va * Ua + Vb * Ub, Va * Uc + Vb * Ud, Vc * Ua + Vd * Ub,
        Vc * Uc + Vd * Ud⟩ : Mat2) = Mat2.one := hid
    rw [hid']
    rw [hscale]
    rw [if_neg (by norm_num [Mat2.det, Mat2.one])]
    constructor
    · have hpt : ∀ p ∈ centerPoints P (centroid P),
          (⟨1 * (Mat2.one.a * p.x + Mat2.one.b * p.y) + (centroid P).x,
            1 * (Mat2.one.c * p.x + Mat2.one.d * p.y) + (centroid P).y⟩ : Point)
          = (⟨p.x + (centroid P).x, p.y + (centroid P).y⟩ : Point) := by
        intro p hp
        simp only [Mat2.one, Point.mk.injEq]
        constructor <;> ring
      rw [List.map_congr_left hpt, centerPoints_add]
    · rw [show (Mat2.one.mulVec q) = q by
        obtain ⟨qx, qy⟩ := q
        simp [Mat2.mulVec, Mat2.one]]
  · by_cases hdet : (⟨Va * Ua + Vb * Ub, Va * Uc + Vb * Ud, Vc * Ua + Vd * Ub,
        Vc * Uc + Vd * Ud⟩ : Mat2).det < 0
    · rw [if_pos hdet, hscale]
      constructor
      · have hpt : ∀ p ∈ centerPoints P (centroid P),
            (⟨1 * ((Va * Ua + -Vb * Ub) * p.x + (Va * Uc + -Vb * Ud) * p.y) + (centroid P).x,
              1 * ((Vc * Ua + -Vd * Ub) * p.x + (Vc * Uc + -Vd * Ud) * p.y) + (centroid P).y⟩
              : Point) = (⟨p.x + (centroid P).x, p.y + (centroid P).y⟩ : Point) := by
          intro p hp
          have hfx := (hfix p hp).2
          obtain ⟨px, py⟩ := p
          simp only [Mat2.mulVec, Point.mk.injEq] at hfx
          simp only [Point.mk.injEq]
          constructor
          · rw [one_mul, hfx.1]
          · rw [one_mul, hfx.2]
        rw [List.map_congr_left hpt, centerPoints_add]
      · have hfx := (hfix q hq).2
        obtain ⟨qx, qy⟩ := q
        simp only [Mat2.mulVec, Point.mk.injEq] at hfx ⊢
        exact hfx
    · rw [if_neg hdet, hscale]
      constructor
      · have hpt : ∀ p ∈ centerPoints P (centroid P),
            (⟨1 * ((Va * Ua + Vb * Ub) * p.x + (Va * Uc + Vb * Ud) * p.y) + (centroid P).x,
              1 * ((Vc * Ua + Vd * Ub) * p.x + (Vc * Uc + Vd * Ud) * p.y) + (centroid P).y⟩
              : Point) = (⟨p.x + (centroid P).x, p.y + (centroid P).y⟩ : Point) := by
          intro p hp
          have hfx := (hfix p hp).1
          obtain ⟨px, py⟩ := p
          simp only [Mat2.mulVec, Point.mk.injEq] at hfx
          simp only [Point.mk.injEq]
          constructor
          · rw [one_mul, hfx.1]
          · rw [one_mul, hfx.2]
        rw [List.map_congr_left hpt, centerPoints_add]
      · have hfx := (hfix q hq).1
        obtain ⟨qx, qy⟩ := q
        simp only [Mat2.mulVec, Point.mk.injEq] at hfx ⊢
        exact hfx

/-- Witness for C5 at the two-point set `(0,0), (2,0)` with the diagonal SVD
`U = V = I`, `s = (2, 0)` of its self-covariance. -/
theorem procrustes_self_identity_witness :
    2 ≤ ([⟨0, 0⟩, ⟨2, 0⟩] : List Point).length
    ∧ IsSVDOf (procrustesSelfCov [⟨0, 0⟩, ⟨2, 0⟩])
        ((fun _ => (⟨Mat2.one, 2, 0, Mat2.one⟩ : SVDResult))
          (procrustesSelfCov [⟨0, 0⟩, ⟨2, 0⟩]))
    ∧ (⟨-1, 0⟩ : Point) ∈ centerPoints [⟨0, 0⟩, ⟨2, 0⟩] (centroid [⟨0, 0⟩, ⟨2, 0⟩])
    ∧ Procrustes (fun _ => (⟨Mat2.one, 2, 0, Mat2.one⟩ : SVDResult))
        [⟨0, 0⟩, ⟨2, 0⟩] [⟨0, 0⟩, ⟨2, 0⟩]
        = .ok ([⟨0, 0⟩, ⟨2, 0⟩], centroid [⟨0, 0⟩, ⟨2, 0⟩], 1)
    ∧ (procrustesRot ((fun _ => (⟨Mat2.one, 2, 0, Mat2.one⟩ : SVDResult))
        (procrustesSelfCov [⟨0, 0⟩, ⟨2, 0⟩]))).mulVec ⟨-1, 0⟩ = ⟨-1, 0⟩ := by
  have hcent : centroid [(⟨0, 0⟩ : Point), ⟨2, 0⟩] = ⟨1, 0⟩ := by
    norm_num [centroid]
  have hcp : centerPoints [(⟨0, 0⟩ : Point), ⟨2, 0⟩] (centroid [⟨0, 0⟩, ⟨2, 0⟩])
      = [⟨-1, 0⟩, ⟨1, 0⟩] := by
    rw [hcent]
    norm_num [centerPoints]
  have hcov : procrustesSelfCov [(⟨0, 0⟩ : Point), ⟨2, 0⟩] = ⟨2, 0, 0, 0⟩ := by
    rw [procrustesSelfCov, hcp]
    norm_num [covOf]
  have hsvd : IsSVDOf (procrustesSelfCov [(⟨0, 0⟩ : Point), ⟨2, 0⟩])
      ⟨Mat2.one, 2, 0, Mat2.one⟩ := by
    rw [hcov]
    refine ⟨?_, ?_, by norm_num, le_refl 0, ?_⟩
    · simp [Mat2.transpose, Mat2.mul, Mat2.one]
    · simp [Mat2.transpose, Mat2.mul, Mat2.one]
    · simp only [Mat2.mul, Mat2.transpose, diagMat, Mat2.one, Mat2.mk.injEq]
      norm_num
  have hq : (⟨-1, 0⟩ : Point) ∈ centerPoints [(⟨0, 0⟩ : Point), ⟨2, 0⟩]
      (centroid [⟨0, 0⟩, ⟨2, 0⟩]) := by
    rw [hcp]
    exact List.mem_cons_self _ _
  have h2 : 2 ≤ ([(⟨0, 0⟩ : Point), ⟨2, 0⟩]).length := by norm_num
  obtain ⟨hmain, hrot⟩ := procrustes_self_identity
    (fun _ => (⟨Mat2.one, 2, 0, Mat2.one⟩ : SVDResult)) [⟨0, 0⟩, ⟨2, 0⟩] ⟨-1, 0⟩ h2 hsvd hq
  exact ⟨h2, hsvd, hq, hmain, hrot⟩

end ImuFusion
